import Mathlib

/-!
Verification development for the real-time speech-segmentation and streaming
pipeline of the meeting-supporter repository.

The definitions below are a shallow embedding of the TypeScript source:

* `RingBuf` with `initBuffer` / `appendToBuffer` / `getBufferedAudio` embeds
  the pre-speech ring buffer fields and methods of `AudioProcessorManager`
  (`audioBuffer`, `bufferCapacity`, `bufferIndex`, `bufferFull`).
  `Float32Array` samples are modelled as `Int` values; sample *values* are
  irrelevant to the buffering logic, only their identity and order matter.
* `APM` embeds the full mutable state of `AudioProcessorManager` together with
  the observable environment (scheduled timers, the flush log of calls to
  `processAndSendAudio`, the liveness of the microphone `MediaStream` tracks).
* `WSClient` embeds `TranscriptionWebSocketClient` together with its observable
  environment (socket ready states, the log of wire messages, the callback log,
  and the settlement status of every promise returned by `connect()`).
* `Reconciler` embeds the transcript state of the `App` component and
  `handleWebSocketMessage`.
* `formatSample` / `formatAudioData` embed `formatAudioData`, with samples as
  rationals and JS `Int16Array` element conversion made explicit.
-/

/-! ## Pre-speech ring buffer (`AudioProcessorManager.initBuffer`,
`appendToBuffer`, `getBufferedAudio`) -/

/-- The ring-buffer fields of `AudioProcessorManager` in their initialized
state (`audioBuffer !== null`, `bufferCapacity !== null`). -/
structure RingBuf where
  audioBuffer : List Int
  bufferCapacity : Nat
  bufferIndex : Nat
  bufferFull : Bool
  deriving Repr, DecidableEq

/-- `initBuffer(sampleRate, bufferDurationSeconds)`: allocates
`sampleRate * bufferDurationSeconds` zero samples and resets cursor and
wrap state. -/
def initBuffer (sampleRate bufferDurationSeconds : Nat) : RingBuf :=
  { audioBuffer := List.replicate (sampleRate * bufferDurationSeconds) 0
    bufferCapacity := sampleRate * bufferDurationSeconds
    bufferIndex := 0
    bufferFull := false }

/-- `Float32Array.prototype.set(xs, pos)`: overwrite `buf` at positions
`[pos, pos + xs.length)` with `xs` (the source always calls it in bounds). -/
def writeAt (buf : List Int) (pos : Nat) (xs : List Int) : List Int :=
  buf.take pos ++ xs ++ buf.drop (pos + xs.length)

/-- The `while (remainingSamples > 0)` loop of `appendToBuffer`.  Each
iteration copies `min(remainingSamples, bufferCapacity - bufferIndex)`
samples at the cursor, advances the cursor modulo the capacity
(`% (this.bufferCapacity || 1)` in the source) and sets the wrap flag when
the cursor returns to 0.  The loop is expressed with explicit fuel; one
unit of fuel per remaining sample is enough, because every iteration of
the source loop copies at least one sample while the cursor is in range. -/
def appendChunks : RingBuf → List Int → Nat → RingBuf
  | r, _, 0 => r
  | r, audioData, fuel + 1 =>
    if audioData.isEmpty then r
    else
      let samplesToCopy := min audioData.length (r.bufferCapacity - r.bufferIndex)
      let buf := writeAt r.audioBuffer r.bufferIndex (audioData.take samplesToCopy)
      let m := if r.bufferCapacity = 0 then 1 else r.bufferCapacity
      let idx := (r.bufferIndex + samplesToCopy) % m
      let full := if idx = 0 ∧ 0 < r.bufferCapacity then true else r.bufferFull
      appendChunks ⟨buf, r.bufferCapacity, idx, full⟩ (audioData.drop samplesToCopy) fuel

/-- `appendToBuffer(audioData)` on an already-initialized buffer (the
`audioBuffer === null` re-initialization branch lives on `APM` below,
mirroring the source, where that branch reads `nativeSampleRate`). -/
def appendToBuffer (r : RingBuf) (audioData : List Int) : RingBuf :=
  appendChunks r audioData audioData.length

/-- `getBufferedAudio()`: chronological contents — `[0, cursor)` if not
wrapped, otherwise `[cursor, capacity) ++ [0, cursor)`. -/
def getBufferedAudio (r : RingBuf) : List Int :=
  if !r.bufferFull then
    r.audioBuffer.take r.bufferIndex
  else
    r.audioBuffer.drop r.bufferIndex ++ r.audioBuffer.take r.bufferIndex

/-- History-indexed invariant of the ring buffer: after the flattened sample
sequence `xs` has been appended to a fresh buffer of capacity `C`, the cursor
is `xs.length % C`, the wrap flag says whether `C` samples have passed, and
the buffer holds the last `min (xs.length) C` samples, rotated so that the
sample with stream index `i` sits at position `i % C`. -/
def RingInv (C : Nat) (xs : List Int) (r : RingBuf) : Prop :=
  r.bufferCapacity = C ∧
  r.audioBuffer.length = C ∧
  r.bufferIndex = xs.length % C ∧
  r.bufferFull = decide (C ≤ xs.length) ∧
  (if xs.length < C then
    r.audioBuffer.take r.bufferIndex = xs
  else
    r.audioBuffer.take r.bufferIndex =
      (xs.drop (xs.length - C)).drop (C - r.bufferIndex) ∧
    r.audioBuffer.drop r.bufferIndex =
      (xs.drop (xs.length - C)).take (C - r.bufferIndex))

/-! ## Audio capture pipeline (`AudioProcessorManager` as a state machine)

The mutable fields of the `AudioProcessorManager` singleton are embedded
as a record, together with the observable environment:
`scheduledTimers`/`nextTimerId` model the browser timer queue
(`setTimeout` returns a fresh handle, `clearTimeout` deletes it, a cleared
handle never fires), `flushLog` records the audio passed to each
`processAndSendAudio` call (before resampling/encoding, which are modelled
separately), and `streamTracksLive` records whether the tracks of the
`MediaStream` granted by `getUserMedia` are still running. -/

structure APM where
  ring : Option RingBuf
  tempBuffer : List (List Int)
  speechStartTimeout : Option Nat
  postDelayBuffer : List (List Int)
  lastSendTime : Option Nat
  nativeSampleRate : Option Nat
  vadInstance : Bool
  audioContext : Bool
  audioStream : Option Nat
  micSource : Bool
  audioWorkletNode : Bool
  scheduledTimers : List Nat
  nextTimerId : Nat
  flushLog : List (List Int)
  isSpeechActive : Bool
  streamTracksLive : Bool
  deriving Repr, DecidableEq

/-- The module-level initial values of the `AudioProcessorManager` object. -/
def initAPM : APM :=
  { ring := none
    tempBuffer := []
    speechStartTimeout := none
    postDelayBuffer := []
    lastSendTime := none
    nativeSampleRate := none
    vadInstance := false
    audioContext := false
    audioStream := none
    micSource := false
    audioWorkletNode := false
    scheduledTimers := []
    nextTimerId := 0
    flushLog := []
    isSpeechActive := false
    streamTracksLive := false }

/-- `appendToBuffer` at the manager level: re-initializes with
`(nativeSampleRate || 16000, 3)` when the buffer is uninitialized, then runs
the copy loop. -/
def appendToBufferAPM (s : APM) (audioData : List Int) : APM :=
  match s.ring with
  | none =>
    { s with ring := some (appendToBuffer
        (initBuffer (s.nativeSampleRate.getD 16000) 3) audioData) }
  | some r => { s with ring := some (appendToBuffer r audioData) }

/-- `getBufferedAudio()` at the manager level (empty when uninitialized). -/
def getBufferedAudioAPM (s : APM) : List Int :=
  match s.ring with
  | none => []
  | some r => getBufferedAudio r

/-- `combineBuffers(preSpeechBuffer, tempBufferArray)`: the allocate-and-copy
loop of the source produces exactly the concatenation. -/
def combineBuffers (preSpeechBuffer : List Int) (tempBufferArray : List (List Int)) :
    List Int :=
  preSpeechBuffer ++ tempBufferArray.flatten

/-- Events delivered to the capture pipeline: an audio frame from the worklet
`port.onmessage` (with the current value of `currentVadInstance?.speech?.active`
and `Date.now()`), the VAD `onSpeechStart` / `onSpeechEnd` edges, and the
firing of a scheduled 500 ms confirmation timer. -/
inductive CapEvent where
  | frame (data : List Int) (vadActive : Bool) (now : Nat)
  | speechStart
  | speechEnd
  | timerFire (id : Nat) (vadActive : Bool) (now : Nat)
  deriving Repr, DecidableEq

/-- One event-handler execution of the capture pipeline.

* `frame`: `appendToBuffer(audioData)` always; when speech is active, push a
  copy into the temp buffer while the confirmation timer is pending,
  otherwise into the post-delay buffer, flushing it when it holds at least
  `0.6 * nativeSampleRate` samples (`10 * total >= 6 * rate`) or at least
  600 ms have passed since the last flush.
* `speechStart`: reset episode buffers and `lastSendTime`, schedule a fresh
  confirmation timer (overwriting the handle without clearing any previous
  timer, exactly as the source does).
* `speechEnd`: if the confirmation timer is pending, clear it and flush
  ring-buffer lookback plus temp buffer; otherwise flush the post-delay
  buffer if nonempty.
* `timerFire`: only a still-scheduled handle can fire; the callback flushes
  ring-buffer lookback plus temp buffer when speech is still active, and
  nulls the handle in every case. -/
def capStep (s : APM) (e : CapEvent) : APM :=
  match e with
  | .frame data vadActive now =>
    let s1 := appendToBufferAPM s data
    if vadActive then
      match s1.speechStartTimeout with
      | some _ => { s1 with tempBuffer := s1.tempBuffer ++ [data] }
      | none =>
        let pdb := s1.postDelayBuffer ++ [data]
        let totalSamples := (pdb.map List.length).sum
        let rate := s1.nativeSampleRate.getD 16000
        let elapsedHit : Bool := match s1.lastSendTime with
          | some t => decide (600 ≤ now - t)
          | none => false
        if decide (6 * rate ≤ 10 * totalSamples) || elapsedHit then
          { s1 with postDelayBuffer := []
                    lastSendTime := some now
                    flushLog := s1.flushLog ++ [pdb.flatten] }
        else { s1 with postDelayBuffer := pdb }
    else s1
  | .speechStart =>
    { s with isSpeechActive := true
             tempBuffer := []
             postDelayBuffer := []
             lastSendTime := none
             speechStartTimeout := some s.nextTimerId
             scheduledTimers := s.scheduledTimers ++ [s.nextTimerId]
             nextTimerId := s.nextTimerId + 1 }
  | .speechEnd =>
    let s0 := { s with isSpeechActive := false }
    match s0.speechStartTimeout with
    | some id =>
      { s0 with scheduledTimers := s0.scheduledTimers.filter (fun t => t != id)
                speechStartTimeout := none
                flushLog := s0.flushLog ++
                  [combineBuffers (getBufferedAudioAPM s0) s0.tempBuffer]
                tempBuffer := [] }
    | none =>
      if s0.postDelayBuffer.isEmpty then s0
      else
        { s0 with flushLog := s0.flushLog ++ [s0.postDelayBuffer.flatten]
                  postDelayBuffer := [] }
  | .timerFire id vadActive now =>
    if id ∈ s.scheduledTimers then
      let s0 := { s with scheduledTimers := s.scheduledTimers.filter (fun t => t != id) }
      if vadActive then
        { s0 with flushLog := s0.flushLog ++
                    [combineBuffers (getBufferedAudioAPM s0) s0.tempBuffer]
                  lastSendTime := some now
                  tempBuffer := []
                  speechStartTimeout := none }
      else { s0 with speechStartTimeout := none }
    else s

def capRun (evs : List CapEvent) (s : APM) : APM :=
  evs.foldl capStep s

/-- The success path of `setupAudioCapture`: microphone granted (its tracks
start running, but the stream is kept only in the local variable — the
source never assigns `this.audioStream`), `AudioContext` created, native
rate detected, ring buffer initialized for 3 seconds, VAD created and
started, worklet node and mic source connected. -/
def setupAudioCaptureSuccess (s : APM) (hwSampleRate : Nat) : APM :=
  { s with streamTracksLive := true
           audioContext := true
           nativeSampleRate := some hwSampleRate
           ring := some (initBuffer hwSampleRate 3)
           vadInstance := true
           micSource := true
           audioWorkletNode := true }

/-- `releaseAudioResources()`: pause/null the VAD, clear any pending
confirmation timer, disconnect/null worklet node and mic source, close/null
the audio context, stop the tracks of `this.audioStream` (if any) and null
it, and reset the buffer state. -/
def releaseAudioResources (s : APM) : APM :=
  let s1 := if s.vadInstance then { s with vadInstance := false } else s
  let s2 := match s1.speechStartTimeout with
    | some id =>
      { s1 with scheduledTimers := s1.scheduledTimers.filter (fun t => t != id)
                speechStartTimeout := none }
    | none => s1
  let s3 := if s2.audioWorkletNode then { s2 with audioWorkletNode := false } else s2
  let s4 := if s3.micSource then { s3 with micSource := false } else s3
  let s5 := if s4.audioContext then { s4 with audioContext := false } else s4
  let s6 := match s5.audioStream with
    | some _ => { s5 with streamTracksLive := false, audioStream := none }
    | none => s5
  { s6 with ring := none
            tempBuffer := []
            postDelayBuffer := []
            lastSendTime := none
            nativeSampleRate := none }

/-- State at the end of a successful `startRecording` for a device whose
native sample rate is `rate` (this is the state in which the VAD edges and
worklet frames are subsequently handled). -/
def startState (rate : Nat) : APM :=
  setupAudioCaptureSuccess initAPM rate

/-- A timer handle that is no longer scheduled and is below the fresh-handle
counter stays that way forever: handles are never reused. -/
def TimerGone (id : Nat) (s : APM) : Prop :=
  id ∉ s.scheduledTimers ∧ id < s.nextTimerId

/-! ## Transcription WebSocket client (`TranscriptionWebSocketClient`)

The client's mutable fields are embedded together with the observable
environment: the current socket's `readyState`, a counter of sockets ever
created (`new WebSocket`), the settlement status of every promise returned
by `connect()`, the set of armed 10-second connection timeouts (each tied to
the socket and connect-call that armed it), the log of wire messages sent
(tagged with the id of the socket they were sent on), and the log of
invoked callbacks.  Browser semantics encoded in the step function: `open`
fires only on a `CONNECTING` socket; `error`/`close` fire only on a
not-yet-`CLOSED` socket (an `error` leaves the connection `CLOSING`, the
`close` event reaches `CLOSED`); a cleared timeout never fires; settling an
already-settled promise is a no-op.  Events of a socket that the client has
already dropped (`this.socket = null`) are outside the model. -/

inductive ReadyState where
  | CONNECTING
  | OPEN
  | CLOSING
  | CLOSED
  deriving Repr, DecidableEq

structure SockSt where
  id : Nat
  readyState : ReadyState
  promiseIdx : Nat
  deriving Repr, DecidableEq

inductive WireMsg where
  | config
  | audio
  | endOfAudio
  | closeNotif
  deriving Repr, DecidableEq

inductive PStatus where
  | pending
  | resolved
  | rejected
  deriving Repr, DecidableEq

inductive CB where
  | connection
  | disconnection (code : Nat) (reason : String)
  | error
  deriving Repr, DecidableEq

structure WSClient where
  socket : Option SockSt
  isConnected : Bool
  isRecording : Bool
  isInitialConfigSent : Bool
  socketsCreated : Nat
  connectCalls : List PStatus
  armedTimeouts : List (Nat × Nat)
  sentLog : List (Nat × WireMsg)
  callbackLog : List CB
  deriving Repr, DecidableEq

def initWSClient : WSClient :=
  { socket := none
    isConnected := false
    isRecording := false
    isInitialConfigSent := false
    socketsCreated := 0
    connectCalls := []
    armedTimeouts := []
    sentLog := []
    callbackLog := [] }

/-- Resolve or reject the promise of connect call `p` (a no-op when it is
already settled, as for a JS promise). -/
def settle (l : List PStatus) (p : Nat) (st : PStatus) : List PStatus :=
  if l.get? p = some PStatus.pending then l.set p st else l

/-- `sendInitialConfig()`: sends the one-time configuration message iff the
socket is `OPEN` and the flag `isInitialConfigSent` is still false. -/
def sendInitialConfigFn (s : WSClient) : WSClient :=
  match s.socket with
  | some sock =>
    if sock.readyState = ReadyState.OPEN ∧ ¬s.isInitialConfigSent then
      { s with sentLog := s.sentLog ++ [(sock.id, WireMsg.config)]
               isInitialConfigSent := true }
    else s
  | none => s

/-- `new WebSocket(wsUrl)` plus arming the 10-second connection timeout;
the created socket is tied to the promise of the connect call creating it. -/
def createSocket (s : WSClient) : WSClient :=
  { s with socket := some ⟨s.socketsCreated, ReadyState.CONNECTING, s.connectCalls.length⟩
           socketsCreated := s.socketsCreated + 1
           connectCalls := s.connectCalls ++ [PStatus.pending]
           armedTimeouts := s.armedTimeouts ++ [(s.socketsCreated, s.connectCalls.length)] }

inductive WSEvent where
  | connectCall
  | openEvt
  | closeEvt (code : Nat) (reason : String)
  | errorEvt
  | sendAudio
  | endTranscriptionCall
  | closeCall
  | timeoutFire (sockId : Nat) (promiseIdx : Nat)
  deriving Repr, DecidableEq

def wsStep (s : WSClient) (e : WSEvent) : WSClient :=
  match e with
  | .connectCall =>
    match s.socket with
    | some sock =>
      if sock.readyState = ReadyState.OPEN ∨ sock.readyState = ReadyState.CONNECTING then
        { s with connectCalls := s.connectCalls ++ [PStatus.resolved] }
      else createSocket s
    | none => createSocket s
  | .openEvt =>
    match s.socket with
    | some sock =>
      if sock.readyState = ReadyState.CONNECTING then
        let s1 := { s with
          socket := some ⟨sock.id, ReadyState.OPEN, sock.promiseIdx⟩
          armedTimeouts := s.armedTimeouts.filter
            (fun tp => tp != (sock.id, sock.promiseIdx))
          isConnected := true
          isInitialConfigSent := false }
        let s2 := sendInitialConfigFn s1
        { s2 with callbackLog := s2.callbackLog ++ [CB.connection]
                  connectCalls := settle s2.connectCalls sock.promiseIdx PStatus.resolved }
      else s
    | none => s
  | .closeEvt code reason =>
    match s.socket with
    | some sock =>
      if sock.readyState ≠ ReadyState.CLOSED then
        { s with socket := some ⟨sock.id, ReadyState.CLOSED, sock.promiseIdx⟩
                 armedTimeouts := s.armedTimeouts.filter
                   (fun tp => tp != (sock.id, sock.promiseIdx))
                 isConnected := false
                 isRecording := false
                 callbackLog := s.callbackLog ++
                   (if s.isConnected then [CB.disconnection code reason] else []) }
      else s
    | none => s
  | .errorEvt =>
    match s.socket with
    | some sock =>
      if sock.readyState ≠ ReadyState.CLOSED then
        { s with socket := some ⟨sock.id, ReadyState.CLOSING, sock.promiseIdx⟩
                 armedTimeouts := s.armedTimeouts.filter
                   (fun tp => tp != (sock.id, sock.promiseIdx))
                 isConnected := false
                 callbackLog := s.callbackLog ++ [CB.error] }
      else s
    | none => s
  | .sendAudio =>
    if s.isConnected then
      match s.socket with
      | some sock =>
        if sock.readyState = ReadyState.OPEN then
          let s1 := if ¬s.isInitialConfigSent then sendInitialConfigFn s else s
          { s1 with sentLog := s1.sentLog ++ [(sock.id, WireMsg.audio)] }
        else s
      | none => s
    else s
  | .endTranscriptionCall =>
    match s.socket with
    | some sock =>
      if sock.readyState = ReadyState.OPEN then
        { s with sentLog := s.sentLog ++ [(sock.id, WireMsg.endOfAudio)]
                 isRecording := false }
      else s
    | none => s
  | .closeCall =>
    match s.socket with
    | some sock =>
      let s1 := if sock.readyState = ReadyState.OPEN then
          { s with sentLog := s.sentLog ++ [(sock.id, WireMsg.closeNotif)] }
        else s
      { s1 with socket := none
                isConnected := false
                isInitialConfigSent := false }
    | none => s
  | .timeoutFire i p =>
    if (i, p) ∈ s.armedTimeouts then
      let s1 := { s with armedTimeouts := s.armedTimeouts.filter (fun tp => tp != (i, p)) }
      match s1.socket with
      | some sock =>
        if sock.readyState ≠ ReadyState.OPEN then
          { s1 with socket := some ⟨sock.id, ReadyState.CLOSING, sock.promiseIdx⟩
                    connectCalls := settle s1.connectCalls p PStatus.rejected }
        else s1
      | none => s1
    else s

def wsRunFrom (evs : List WSEvent) (s : WSClient) : WSClient :=
  evs.foldl wsStep s

def wsRun (evs : List WSEvent) : WSClient :=
  wsRunFrom evs initWSClient

/-- The wire messages sent on the socket with id `n`, in order. -/
def logOnL (log : List (Nat × WireMsg)) (n : Nat) : List WireMsg :=
  (log.filter (fun e => e.1 == n)).map Prod.snd

def logOn (s : WSClient) (n : Nat) : List WireMsg :=
  logOnL s.sentLog n

/-- How many configuration messages were ever sent on socket `n`. -/
def configCount (s : WSClient) (n : Nat) : Nat :=
  (logOn s n).count WireMsg.config

/-- Inductive invariant of the socket client used for the handshake and
disconnection-reporting claims. -/
structure WSInv (s : WSClient) : Prop where
  conf_le : ∀ n, configCount s n ≤ 1
  log_lt : ∀ e ∈ s.sentLog, e.1 < s.socketsCreated
  sock_lt : ∀ sock, s.socket = some sock → sock.id < s.socketsCreated
  unsent : ∀ sock, s.socket = some sock → s.isInitialConfigSent = false →
    configCount s sock.id = 0
  connecting_empty : ∀ sock, s.socket = some sock →
    sock.readyState = ReadyState.CONNECTING → logOn s sock.id = []
  head_config : ∀ n, logOn s n = [] ∨ (logOn s n).head? = some WireMsg.config
  open_sent : ∀ sock, s.socket = some sock → sock.readyState = ReadyState.OPEN →
    s.isInitialConfigSent = true ∧ configCount s sock.id = 1
  conn_cb : s.isConnected = true → CB.connection ∈ s.callbackLog
  conn_open : s.isConnected = true →
    ∃ sock, s.socket = some sock ∧ sock.readyState = ReadyState.OPEN

/-- Claim C10's situation: the promise of connect call `p` can never settle —
it is still pending, no armed connection timeout can reject it, and no
socket in `CONNECTING` state can still resolve it. -/
def StuckPromise (s : WSClient) (p : Nat) : Prop :=
  s.connectCalls.get? p = some PStatus.pending ∧
  (∀ tp ∈ s.armedTimeouts, tp.2 ≠ p) ∧
  (∀ sock, s.socket = some sock → sock.promiseIdx = p →
    sock.readyState ≠ ReadyState.CONNECTING)

/-- The socket client together with the pool of *stale* sockets: `close()`
nulls `this.socket` unconditionally but calls `socket.close()` only when the
socket is `OPEN`, so a socket abandoned while still `CONNECTING` keeps
connecting in the browser with all its handlers attached.  `stale` holds
those abandoned connecting sockets (and tracks their later ready states).
A socket abandoned while `OPEN` was actively closed; the only handler it can
still fire is `onclose`, at a point where `close()` has already reset
`isConnected`, so it is not tracked.  The armed 10-second connection
timeouts of stale sockets stay in `cur.armedTimeouts`: `close()` does not
clear them, and their callback reads `this.socket` (the current socket), so
`WSEvent.timeoutFire` already models them. -/
structure WSX where
  cur : WSClient
  stale : List SockSt
  deriving Repr, DecidableEq

def initWSX : WSX :=
  { cur := initWSClient, stale := [] }

/-- Events of the full client: an event of the current socket or a client
API call (`WSEvent`), or a handler of a stale socket firing.  Each stale
handler first runs `clearTimeout` on the connection timeout its closure
captured, then mutates the shared client fields exactly as the handlers in
`connect()` do — in particular `sendInitialConfig()` inside the stale
`onopen` reads `this.socket`, the *current* socket. -/
inductive WSXEvent where
  | act (e : WSEvent)
  | staleOpen (sid : Nat)
  | staleClose (sid : Nat) (code : Nat) (reason : String)
  | staleError (sid : Nat)
  deriving Repr, DecidableEq

def wsXStep (x : WSX) (e : WSXEvent) : WSX :=
  match e with
  | .act WSEvent.closeCall =>
    match x.cur.socket with
    | some sock =>
      { cur := wsStep x.cur WSEvent.closeCall
        stale := if sock.readyState = ReadyState.CONNECTING then x.stale ++ [sock]
                 else x.stale }
    | none => x
  | .act e => { x with cur := wsStep x.cur e }
  | .staleOpen sid =>
    match x.stale.find? (fun sk => sk.id == sid) with
    | some sk =>
      if sk.readyState = ReadyState.CONNECTING then
        let c1 := { x.cur with
          armedTimeouts := x.cur.armedTimeouts.filter
            (fun tp => tp != (sk.id, sk.promiseIdx))
          isConnected := true
          isInitialConfigSent := false }
        let c2 := sendInitialConfigFn c1
        { cur := { c2 with
            callbackLog := c2.callbackLog ++ [CB.connection]
            connectCalls := settle c2.connectCalls sk.promiseIdx PStatus.resolved }
          stale := x.stale.map (fun t =>
            if t.id == sid then { t with readyState := ReadyState.OPEN } else t) }
      else x
    | none => x
  | .staleClose sid code reason =>
    match x.stale.find? (fun sk => sk.id == sid) with
    | some sk =>
      if sk.readyState ≠ ReadyState.CLOSED then
        { cur := { x.cur with
            armedTimeouts := x.cur.armedTimeouts.filter
              (fun tp => tp != (sk.id, sk.promiseIdx))
            isConnected := false
            isRecording := false
            callbackLog := x.cur.callbackLog ++
              (if x.cur.isConnected then [CB.disconnection code reason] else []) }
          stale := x.stale.map (fun t =>
            if t.id == sid then { t with readyState := ReadyState.CLOSED } else t) }
      else x
    | none => x
  | .staleError sid =>
    match x.stale.find? (fun sk => sk.id == sid) with
    | some sk =>
      if sk.readyState ≠ ReadyState.CLOSED then
        { cur := { x.cur with
            armedTimeouts := x.cur.armedTimeouts.filter
              (fun tp => tp != (sk.id, sk.promiseIdx))
            isConnected := false
            callbackLog := x.cur.callbackLog ++ [CB.error] }
          stale := x.stale.map (fun t =>
            if t.id == sid then { t with readyState := ReadyState.CLOSING } else t) }
      else x
    | none => x

def wsXRun (evs : List WSXEvent) : WSX :=
  evs.foldl wsXStep initWSX

/-! ## Transcript reconciler (`handleWebSocketMessage` and the transcript
state of the `App` component)

One `processMessage` models the handling of one WebSocket message event:
the `forEach` over `data.segments` updating the `transcriptQueue` ref and
the local `newCurrentText`/`latestSegment`, followed by the `setTranscript`
updater draining the queue (React flushes the state update at the end of
the message event, before the next message is handled) and the
`setCurrentText` call.  Segment ids and timestamps (`Date.now()`,
`Math.random()`, `new Date()`) are not modelled; a transcript segment keeps
its text and the copied confidence. -/

structure Seg where
  text : String
  completed : Bool
  confidence : Option ℚ
  deriving Repr, DecidableEq

structure TranscriptSegment where
  text : String
  confidence : Option ℚ
  deriving Repr, DecidableEq

inductive ServerMessage where
  | segments (segs : List Seg)
  | transcription (text : String)
  | other
  deriving Repr, DecidableEq

structure Reconciler where
  transcriptQueue : List String
  transcript : List TranscriptSegment
  currentText : String
  deriving Repr, DecidableEq

def initReconciler : Reconciler :=
  { transcriptQueue := [], transcript := [], currentText := "" }

/-- One iteration of the `forEach` over `data.segments`: the accumulator is
`(transcriptQueue, newCurrentText, latestSegment)`. -/
def segStep (acc : List String × String × Option Seg) (seg : Seg) :
    List String × String × Option Seg :=
  let queue := if seg.completed then
      (if acc.1.contains seg.text then acc.1 else acc.1 ++ [seg.text])
    else acc.1
  let newCurrentText := if seg.completed then acc.2.1 else seg.text
  (queue, newCurrentText, some seg)

def segScan (segs : List Seg) (queue0 : List String) :
    List String × String × Option Seg :=
  segs.foldl segStep (queue0, "", none)

/-- The `setTranscript` updater: shift every queued text and append it as a
new segment with the confidence of the last segment seen in the message. -/
def drainQueue (transcript : List TranscriptSegment) (queue : List String)
    (latest : Option Seg) : List TranscriptSegment :=
  transcript ++ queue.map (fun t => { text := t, confidence := latest.bind Seg.confidence })

def processMessage (s : Reconciler) (m : ServerMessage) : Reconciler :=
  match m with
  | .segments segs =>
    let res := segScan segs s.transcriptQueue
    { transcriptQueue := []
      transcript := drainQueue s.transcript res.1 res.2.2
      currentText := res.2.1 }
  | .transcription text =>
    if text.length ≠ 0 then
      { s with transcript := s.transcript ++ [{ text := text, confidence := none }]
               currentText := "" }
    else s
  | .other => s

def processMessages (msgs : List ServerMessage) (s : Reconciler) : Reconciler :=
  msgs.foldl processMessage s

/-! ## PCM encoding (`formatAudioData`, `processAndSendAudio`)

Float samples are modelled as rationals; a JS `Int16Array` element store is
the number truncated toward zero and wrapped into [-32768, 32767]; the
`.buffer` view is serialized little-endian (the byte order of the target
platforms). -/

/-- `Math.max(-1, Math.min(1, s))`. -/
def clampSample (x : ℚ) : ℚ := max (-1) (min 1 x)

/-- `s < 0 ? s * 0x8000 : s * 0x7FFF`. -/
def scaleSample (s : ℚ) : ℚ := if s < 0 then s * 32768 else s * 32767

/-- Number-to-integer conversion (truncation toward zero). -/
def truncQ (q : ℚ) : Int := if 0 ≤ q then ⌊q⌋ else ⌈q⌉

/-- Wrapping into a signed 16-bit integer, as an `Int16Array` element store. -/
def toInt16 (v : Int) : Int := (v + 32768).emod 65536 - 32768

def formatSample (x : ℚ) : Int :=
  toInt16 (truncQ (scaleSample (clampSample x)))

/-- `formatAudioData(float32Array)`: the `Int16Array` of converted samples. -/
def formatAudioData (float32Array : List ℚ) : List Int :=
  float32Array.map formatSample

/-- The bytes of one 16-bit word in `pcm16.buffer`, low byte first. -/
def int16LEBytes (v : Int) : List Nat :=
  [((v.emod 65536).toNat) % 256, ((v.emod 65536).toNat) / 256]

/-- The bytes of `pcm16.buffer`. -/
def formatAudioDataBytes (xs : List ℚ) : List Nat :=
  (formatAudioData xs).flatMap int16LEBytes

/-- `processAndSendAudio(audioData, ...)`: returns without emitting anything
when `audioData.length === 0`; otherwise resamples (`resampleAudio` is an
environment primitive passed as a parameter) and hands the encoded buffer
to the output callback. -/
def processAndSendAudio (resample : List ℚ → List ℚ) (audioData : List ℚ) :
    Option (List Nat) :=
  if audioData.length = 0 then none
  else some (formatAudioDataBytes (resample audioData))

theorem writeAt_length {buf xs : List Int} {pos : Nat}
    (h : pos + xs.length ≤ buf.length) : (writeAt buf pos xs).length = buf.length := by
  simp only [writeAt, List.length_append, List.length_take, List.length_drop]
  omega

theorem ringInv_init (sampleRate dur : Nat) (h : 0 < sampleRate * dur) :
    RingInv (sampleRate * dur) [] (initBuffer sampleRate dur) := by
  have hne : ¬ (sampleRate * dur ≤ 0) := by omega
  refine ⟨rfl, by simp [initBuffer], by simp [initBuffer], ?_, ?_⟩
  · show false = decide (sampleRate * dur ≤ [].length)
    simp [hne]
  · simp [initBuffer, h]

theorem drop_congr_append {xs chunk : List Int} {a b : Nat} (h : a = b) :
    xs.drop a ++ chunk = xs.drop b ++ chunk := by rw [h]

theorem take_congr {l : List Int} {a b : Nat} (h : a = b) : l.take a = l.take b := by
  rw [h]

/-- One iteration of the `appendToBuffer` loop preserves the contents part of
`RingInv`: writing the `k`-sample chunk at the cursor turns "buffer holds the
last `min n C` samples of `xs`" into the same statement for `xs ++ chunk`. -/
theorem contents_step {C n k idx idx' : Nat} {xs chunk buf : List Int}
    (hC : 0 < C) (hblen : buf.length = C) (hxs : xs.length = n)
    (hchunk : chunk.length = k) (hk1 : 1 ≤ k)
    (hidx : idx = n % C) (hkC : idx + k ≤ C) (hidx' : idx' = (n + k) % C)
    (hold : if n < C then buf.take idx = xs
      else buf.take idx = (xs.drop (n - C)).drop (C - idx) ∧
           buf.drop idx = (xs.drop (n - C)).take (C - idx)) :
    if n + k < C then (writeAt buf idx chunk).take idx' = xs ++ chunk
    else (writeAt buf idx chunk).take idx' =
           ((xs ++ chunk).drop (n + k - C)).drop (C - idx') ∧
         (writeAt buf idx chunk).drop idx' =
           ((xs ++ chunk).drop (n + k - C)).take (C - idx') := by
  have hidxlt : idx < C := by rw [hidx]; exact Nat.mod_lt _ hC
  have hbuf' : writeAt buf idx chunk = buf.take idx ++ chunk ++ buf.drop (idx + k) := by
    rw [writeAt, hchunk]
  have hTlen : (buf.take idx).length = idx := by
    rw [List.length_take]; omega
  by_cases hn : n < C
  · -- the buffer had not wrapped yet: it holds exactly `xs` before the cursor
    have hidxn : idx = n := by rw [hidx, Nat.mod_eq_of_lt hn]
    rw [if_pos hn] at hold
    by_cases hnk : n + k < C
    · -- still not wrapped after the write
      rw [if_pos hnk]
      have hidx'v : idx' = n + k := by rw [hidx', Nat.mod_eq_of_lt hnk]
      rw [hbuf', hidx'v, List.append_assoc, List.take_append_eq_append_take]
      have h1 : (buf.take idx).take (n + k) = buf.take idx := by
        apply List.take_of_length_le; omega
      have h2 : (chunk ++ buf.drop (idx + k)).take (n + k - (buf.take idx).length) =
          chunk := by
        rw [hTlen, hidxn]
        have hk2 : n + k - n = k := by omega
        rw [hk2, List.take_append_eq_append_take, hchunk, Nat.sub_self, List.take_zero,
          List.append_nil]
        exact List.take_of_length_le (le_of_eq hchunk)
      rw [h1, h2, hold]
    · -- the write ends exactly at the capacity boundary: `n + k = C`
      have hnkC : n + k = C := by omega
      rw [if_neg hnk]
      have hidx'v : idx' = 0 := by rw [hidx', hnkC, Nat.mod_self]
      have hdropC : buf.drop (idx + k) = [] := by
        apply List.drop_eq_nil_of_le; omega
      have hLlen : ((xs ++ chunk).drop (n + k - C)).length = C := by
        simp [hxs, hchunk]; omega
      have hL : (xs ++ chunk).drop (n + k - C) = xs ++ chunk := by
        have : n + k - C = 0 := by omega
        rw [this, List.drop_zero]
      constructor
      · rw [hidx'v]
        have : C - 0 = C := by omega
        rw [this, List.take_zero]
        symm
        apply List.drop_eq_nil_of_le
        omega
      · rw [hidx'v, List.drop_zero, hbuf', hdropC, List.append_nil, hL, hold]
        have hc0 : C - 0 = C := by omega
        rw [hc0]
        symm
        apply List.take_of_length_le
        simp only [List.length_append, hxs, hchunk]
        omega
  · -- the buffer had already wrapped
    rw [if_neg hn] at hold
    obtain ⟨hT, hD⟩ := hold
    have hnC : C ≤ n := by omega
    have hxslen : C ≤ xs.length := by omega
    have hLlen : (xs.drop (n - C)).length = C := by
      rw [List.length_drop, hxs]; omega
    have hnk : ¬ (n + k < C) := by omega
    rw [if_neg hnk]
    -- the new window is the old one shifted by `k`: `L.drop k ++ chunk`
    have hL' : (xs ++ chunk).drop (n + k - C) = (xs.drop (n - C)).drop k ++ chunk := by
      rw [List.drop_append_eq_append_drop]
      have h1 : chunk.drop (n + k - C - xs.length) = chunk := by
        rw [hxs]
        have h0 : n + k - C - n = 0 := by omega
        rw [h0, List.drop_zero]
      rw [h1]
      simp only [List.drop_drop]
      exact drop_congr_append (by omega)
    have hR : buf.drop (idx + k) = ((xs.drop (n - C)).drop k).take (C - idx - k) := by
      have h1 : buf.drop (idx + k) = (buf.drop idx).drop k := by
        simp only [List.drop_drop]
      rw [h1, hD, List.drop_take]
    by_cases hwrap : idx + k < C
    · have hidx'v : idx' = idx + k := by
        rw [hidx']
        have : (n + k) % C = (idx + k) % C := by
          conv_rhs => rw [hidx]
          rw [Nat.mod_add_mod]
        rw [this, Nat.mod_eq_of_lt hwrap]
      have hlen2 : ((xs.drop (n - C)).drop k).length = C - k := by
        simp only [List.length_drop, hxs]
        omega
      constructor
      · rw [hbuf', hidx'v, List.append_assoc, List.take_append_eq_append_take]
        have h1 : (buf.take idx).take (idx + k) = buf.take idx := by
          apply List.take_of_length_le; omega
        have h2 : (chunk ++ buf.drop (idx + k)).take (idx + k - (buf.take idx).length) =
            chunk := by
          rw [hTlen]
          have hik : idx + k - idx = k := by omega
          rw [hik, List.take_append_eq_append_take, hchunk, Nat.sub_self, List.take_zero,
            List.append_nil]
          exact List.take_of_length_le (le_of_eq hchunk)
        rw [h1, h2, hT, hL', List.drop_append_eq_append_drop, hlen2]
        have h4 : C - (idx + k) - (C - k) = 0 := by omega
        rw [h4, List.drop_zero]
        simp only [List.drop_drop]
        exact drop_congr_append (by omega)
      · rw [hbuf', hidx'v, List.append_assoc, List.drop_append_eq_append_drop]
        have h1 : (buf.take idx).drop (idx + k) = [] := by
          apply List.drop_eq_nil_of_le; omega
        have h2 : (chunk ++ buf.drop (idx + k)).drop (idx + k - (buf.take idx).length) =
            buf.drop (idx + k) := by
          rw [hTlen]
          have hik : idx + k - idx = k := by omega
          rw [hik, List.drop_append_eq_append_drop, hchunk, Nat.sub_self, List.drop_zero]
          rw [List.drop_eq_nil_of_le (le_of_eq hchunk), List.nil_append]
        rw [h1, h2, List.nil_append, hR, hL', List.take_append_eq_append_take, hlen2]
        have h3 : C - (idx + k) - (C - k) = 0 := by omega
        rw [h3, List.take_zero, List.append_nil]
        exact take_congr (by omega)
    · -- the write ends exactly at the capacity boundary again
      have hwrapC : idx + k = C := by omega
      have hidx'v : idx' = 0 := by
        rw [hidx']
        have : (n + k) % C = (idx + k) % C := by
          conv_rhs => rw [hidx]
          rw [Nat.mod_add_mod]
        rw [this, hwrapC, Nat.mod_self]
      have hL'len : ((xs ++ chunk).drop (n + k - C)).length = C := by
        rw [List.length_drop]
        simp [hxs, hchunk]
        omega
      constructor
      · rw [hidx'v, List.take_zero]
        symm
        apply List.drop_eq_nil_of_le
        omega
      · rw [hidx'v, List.drop_zero, hbuf']
        have hRnil : buf.drop (idx + k) = [] := by
          apply List.drop_eq_nil_of_le; omega
        rw [hRnil, List.append_nil, hT, hL']
        have h1 : C - idx = k := by omega
        have h2 : C - 0 = C := by omega
        rw [h1, h2]
        symm
        apply List.take_of_length_le
        rw [← hL', hL'len]

theorem ringInv_appendChunks {C : Nat} (hC : 0 < C) :
    ∀ (fuel : Nat) (xs d : List Int) (r : RingBuf), RingInv C xs r →
      d.length ≤ fuel → RingInv C (xs ++ d) (appendChunks r d fuel) := by
  intro fuel
  induction fuel with
  | zero =>
    intro xs d r hinv hd
    have : d = [] := List.eq_nil_of_length_eq_zero (Nat.le_zero.mp hd)
    subst this
    simpa [appendChunks] using hinv
  | succ fuel ih =>
    intro xs d r hinv hd
    by_cases hde : d.isEmpty
    · have : d = [] := List.isEmpty_iff.mp hde
      subst this
      simpa [appendChunks] using hinv
    · have hdne : d ≠ [] := fun h => hde (by simp [h])
      have hdlen : 0 < d.length := List.length_pos.mpr hdne
      obtain ⟨hcap, hblen, hidx, hfull, hcontents⟩ := hinv
      -- abbreviations for the single loop iteration
      set n := xs.length with hn
      have hidxlt : r.bufferIndex < C := by
        rw [hidx]; exact Nat.mod_lt _ hC
      set k := min d.length (r.bufferCapacity - r.bufferIndex) with hk
      have hk1 : 1 ≤ k := by
        rw [hk, hcap]; exact le_min hdlen (by omega)
      have hkd : k ≤ d.length := by rw [hk]; exact min_le_left _ _
      have hkC : r.bufferIndex + k ≤ C := by
        rw [hk, hcap]; omega
      have hchunklen : (d.take k).length = k := by
        rw [List.length_take]; omega
      -- the state after one iteration
      set idx' := (r.bufferIndex + k) % C with hidx'
      set buf' := writeAt r.audioBuffer r.bufferIndex (d.take k) with hbuf'
      set full' := if idx' = 0 ∧ 0 < C then true else r.bufferFull with hfull'
      have hstep : appendChunks r d (fuel + 1) =
          appendChunks ⟨buf', C, idx', full'⟩ (d.drop k) fuel := by
        conv_lhs => rw [appendChunks]
        simp only [hde, Bool.false_eq_true, if_false]
        rw [← hk, ← hbuf', hcap]
        rw [if_neg (by omega : ¬ C = 0), ← hidx', ← hfull']
      rw [hstep]
      have hrec := ih (xs ++ d.take k) (d.drop k) ⟨buf', C, idx', full'⟩ ?_ ?_
      · rw [List.append_assoc, List.take_append_drop] at hrec
        exact hrec
      · -- RingInv is preserved by the single iteration
        have hlen' : (xs ++ d.take k).length = n + k := by
          simp [hchunklen]
        have hbuf'len : buf'.length = C := by
          rw [hbuf', writeAt_length]
          · exact hblen
          · rw [hchunklen, hblen]; exact hkC
        refine ⟨rfl, hbuf'len, ?_, ?_, ?_⟩
        · -- cursor
          show idx' = (xs ++ d.take k).length % C
          rw [hlen', hidx', hidx, Nat.mod_add_mod]
        · -- wrap flag
          show full' = decide (C ≤ (xs ++ d.take k).length)
          rw [hlen', hfull', hidx']
          by_cases hfullc : C ≤ n
          · have hft : r.bufferFull = true := by
              rw [hfull]; exact decide_eq_true (by omega)
            rw [hft, ite_self]
            symm
            rw [decide_eq_true_eq]
            omega
          · have hnlt : n < C := by omega
            have hidxn : r.bufferIndex = n := by
              rw [hidx, Nat.mod_eq_of_lt hnlt]
            have hff : r.bufferFull = false := by
              rw [hfull]; exact decide_eq_false (by omega)
            rw [hff]
            by_cases hcase : n + k = C
            · have h0 : (r.bufferIndex + k) % C = 0 := by
                rw [hidxn, hcase]; exact Nat.mod_self C
              rw [h0, if_pos ⟨rfl, hC⟩]
              symm
              rw [decide_eq_true_eq]
              omega
            · have hlt : n + k < C := by omega
              have h0 : (r.bufferIndex + k) % C = n + k := by
                rw [hidxn, Nat.mod_eq_of_lt hlt]
              rw [h0, if_neg (fun hcl => absurd hcl.1 (by omega))]
              symm
              rw [decide_eq_false_iff_not]
              omega
        · -- contents
          show if (xs ++ d.take k).length < C then
              (writeAt r.audioBuffer r.bufferIndex (d.take k)).take idx' = xs ++ d.take k
            else
              (writeAt r.audioBuffer r.bufferIndex (d.take k)).take idx' =
                ((xs ++ d.take k).drop ((xs ++ d.take k).length - C)).drop (C - idx') ∧
              (writeAt r.audioBuffer r.bufferIndex (d.take k)).drop idx' =
                ((xs ++ d.take k).drop ((xs ++ d.take k).length - C)).take (C - idx')
          rw [hlen']
          have hidxn : r.bufferIndex = n % C := hidx
          have hidx'n : idx' = (n + k) % C := by
            rw [hidx', hidxn, Nat.mod_add_mod]
          exact contents_step hC hblen hn.symm hchunklen hk1 hidxn hkC hidx'n hcontents
      · have : (d.drop k).length = d.length - k := by simp
        omega

theorem getBufferedAudio_of_ringInv {C : Nat} {xs : List Int}
    {r : RingBuf} (hinv : RingInv C xs r) :
    getBufferedAudio r = xs.drop (xs.length - C) := by
  obtain ⟨hcap, hblen, hidx, hfull, hcontents⟩ := hinv
  by_cases hlt : xs.length < C
  · have hf : r.bufferFull = false := by rw [hfull]; simp; omega
    rw [if_pos hlt] at hcontents
    have : xs.length - C = 0 := by omega
    rw [getBufferedAudio, hf, this]
    simpa using hcontents
  · have hf : r.bufferFull = true := by rw [hfull]; simp; omega
    rw [if_neg hlt] at hcontents
    obtain ⟨ht, hd⟩ := hcontents
    rw [getBufferedAudio, hf]
    simp only [Bool.not_true, Bool.false_eq_true, if_false]
    rw [ht, hd, List.take_append_drop]

theorem ringInv_appendToBuffer {C : Nat} (hC : 0 < C) {xs d : List Int} {r : RingBuf}
    (hinv : RingInv C xs r) : RingInv C (xs ++ d) (appendToBuffer r d) :=
  ringInv_appendChunks hC d.length xs d r hinv (le_refl _)

theorem ringInv_foldl {C : Nat} (hC : 0 < C) :
    ∀ (frames : List (List Int)) (xs : List Int) (r : RingBuf), RingInv C xs r →
      RingInv C (xs ++ frames.flatten) (frames.foldl appendToBuffer r) := by
  intro frames
  induction frames with
  | nil => intro xs r h; simpa using h
  | cons f rest ih =>
    intro xs r h
    have h1 := ih (xs ++ f) (appendToBuffer r f) (ringInv_appendToBuffer hC h)
    rw [List.append_assoc] at h1
    simpa using h1

/-- C1: for every sequence of frames of arbitrary lengths appended via
`appendToBuffer` to an initialized buffer of capacity
`C = sampleRate * dur`: if the total appended length is at most `C` then
`getBufferedAudio()` returns exactly the concatenation of the frames in
order, and if the total length exceeds `C` it returns exactly the last `C`
appended samples in order (oldest discarded), regardless of whether
individual frame lengths divide the capacity. -/
theorem ring_buffer_round_trip (sampleRate dur : Nat) (h : 0 < sampleRate * dur)
    (frames : List (List Int)) :
    (frames.flatten.length ≤ sampleRate * dur →
      getBufferedAudio (frames.foldl appendToBuffer (initBuffer sampleRate dur)) =
        frames.flatten) ∧
    (sampleRate * dur < frames.flatten.length →
      getBufferedAudio (frames.foldl appendToBuffer (initBuffer sampleRate dur)) =
        frames.flatten.drop (frames.flatten.length - sampleRate * dur)) := by
  have hinv := ringInv_foldl h frames [] (initBuffer sampleRate dur) (ringInv_init _ _ h)
  rw [List.nil_append] at hinv
  have hread := getBufferedAudio_of_ringInv hinv
  constructor
  · intro hle
    have h0 : frames.flatten.length - sampleRate * dur = 0 := by omega
    rw [hread, h0, List.drop_zero]
  · intro _
    exact hread

theorem ring_buffer_round_trip_witness :
    getBufferedAudio
        (List.foldl appendToBuffer (initBuffer 2 3) [[1, 2, 3, 4], [5, 6, 7], [8]]) =
      [3, 4, 5, 6, 7, 8] := by
  have h := (ring_buffer_round_trip 2 3 (by decide) [[1, 2, 3, 4], [5, 6, 7], [8]]).2
    (by decide)
  rw [h]
  decide

theorem capRun_append (a b : List CapEvent) (s : APM) :
    capRun (a ++ b) s = capRun b (capRun a s) :=
  List.foldl_append ..

theorem capRun_cons (e : CapEvent) (evs : List CapEvent) (s : APM) :
    capRun (e :: evs) s = capRun evs (capStep s e) :=
  rfl

/-- Frames delivered while speech is not active only feed the ring buffer. -/
theorem capRun_frames_vadOff (pf : List (List Int × Nat)) :
    ∀ (s : APM) (r : RingBuf), s.ring = some r →
      capRun (pf.map (fun p => CapEvent.frame p.1 false p.2)) s =
        { s with ring := some (List.foldl appendToBuffer r (pf.map Prod.fst)) } := by
  induction pf with
  | nil =>
    intro s r h
    obtain ⟨rg, tb, st, pd, ls, ns, vi, ac, sa, ms, awn, sct, nti, fl, isp, stl⟩ := s
    simp only [APM.ring] at h
    subst h
    rfl
  | cons p rest ih =>
    intro s r h
    rw [List.map_cons, capRun_cons]
    have hstep : capStep s (CapEvent.frame p.1 false p.2) =
        { s with ring := some (appendToBuffer r p.1) } := by
      simp [capStep, appendToBufferAPM, h]
    rw [hstep, ih _ (appendToBuffer r p.1) rfl]
    rfl

/-- Frames delivered while speech is active and the confirmation timer is
pending feed the ring buffer and are pushed into the temp buffer. -/
theorem capRun_frames_armed (wf : List (List Int × Nat)) :
    ∀ (s : APM) (r : RingBuf) (id : Nat), s.ring = some r →
      s.speechStartTimeout = some id →
      capRun (wf.map (fun p => CapEvent.frame p.1 true p.2)) s =
        { s with ring := some (List.foldl appendToBuffer r (wf.map Prod.fst))
                 tempBuffer := s.tempBuffer ++ wf.map Prod.fst } := by
  induction wf with
  | nil =>
    intro s r id h ht
    obtain ⟨rg, tb, st, pd, ls, ns, vi, ac, sa, ms, awn, sct, nti, fl, isp, stl⟩ := s
    simp only [APM.ring] at h
    subst h
    simp [capRun]
  | cons p rest ih =>
    intro s r id h ht
    rw [List.map_cons, capRun_cons]
    have hstep : capStep s (CapEvent.frame p.1 true p.2) =
        { s with ring := some (appendToBuffer r p.1)
                 tempBuffer := s.tempBuffer ++ [p.1] } := by
      simp [capStep, appendToBufferAPM, h, ht]
    rw [hstep, ih { s with ring := some (appendToBuffer r p.1)
                           tempBuffer := s.tempBuffer ++ [p.1] }
      (appendToBuffer r p.1) id rfl ht]
    simp

/-- C2 (amended): when `onSpeechStart` fires after the pre-speech frames `pf`
and the 500 ms confirmation timer fires with speech still active after the
confirmation-window frames `wf`, the single chunk flushed at timer fire is
the ring-buffer contents at fire time — the last `min F (3 * rate)` samples
of everything captured up to the fire point, where `F` is the total number
of captured samples — followed by a second copy of the confirmation-window
frames.  Samples older than `F - 3 * rate` are absent, and the
confirmation-window audio appears twice. -/
theorem speech_onset_flush (rate now : Nat) (hr : 0 < rate)
    (pf wf : List (List Int × Nat)) :
    (capRun (pf.map (fun p => CapEvent.frame p.1 false p.2) ++
        CapEvent.speechStart ::
          (wf.map (fun p => CapEvent.frame p.1 true p.2) ++
            [CapEvent.timerFire 0 true now]))
        (startState rate)).flushLog =
      [((pf.map Prod.fst).flatten ++ (wf.map Prod.fst).flatten).drop
          (((pf.map Prod.fst).flatten ++ (wf.map Prod.fst).flatten).length -
            rate * 3) ++
        (wf.map Prod.fst).flatten] := by
  have hC : 0 < rate * 3 := by omega
  rw [capRun_append, capRun_cons, capRun_append]
  rw [capRun_frames_vadOff pf (startState rate) (initBuffer rate 3) rfl]
  set s1 : APM := { startState rate with
    ring := some (List.foldl appendToBuffer (initBuffer rate 3) (pf.map Prod.fst)) }
    with hs1
  have hstep : capStep s1 CapEvent.speechStart =
      { s1 with isSpeechActive := true
                tempBuffer := []
                postDelayBuffer := []
                lastSendTime := none
                speechStartTimeout := some 0
                scheduledTimers := [0]
                nextTimerId := 1 } := rfl
  rw [hstep]
  rw [capRun_frames_armed wf _
    (List.foldl appendToBuffer (initBuffer rate 3) (pf.map Prod.fst)) 0 rfl rfl]
  have hmem : (0 : Nat) ∈ [0] := by decide
  have hring : List.foldl appendToBuffer
      (List.foldl appendToBuffer (initBuffer rate 3) (pf.map Prod.fst))
      (wf.map Prod.fst) =
      List.foldl appendToBuffer (initBuffer rate 3)
        (pf.map Prod.fst ++ wf.map Prod.fst) := by
    rw [List.foldl_append]
  have hinv := ringInv_foldl hC (pf.map Prod.fst ++ wf.map Prod.fst) []
    (initBuffer rate 3) (ringInv_init rate 3 hC)
  rw [List.nil_append] at hinv
  have hread := getBufferedAudio_of_ringInv hinv
  simp only [capRun, List.foldl_cons, List.foldl_nil]
  simp only [capStep, hmem, if_true, combineBuffers, getBufferedAudioAPM]
  rw [hring, hread]
  simp [startState, setupAudioCaptureSuccess, initAPM, List.flatten_append]

theorem speech_onset_flush_witness :
    (capRun ([CapEvent.frame [1, 2] false 0] ++ CapEvent.speechStart ::
        ([CapEvent.frame [3, 4] true 0] ++ [CapEvent.timerFire 0 true 0]))
      (startState 2)).flushLog = [[1, 2, 3, 4, 3, 4]] := by
  have h := speech_onset_flush 2 0 (by decide) [([1, 2], 0)] [([3, 4], 0)]
  simp only [List.map_cons, List.map_nil] at h
  rw [h]
  decide

/-- C2 counterexample: with pairwise-distinct stream samples `1, 2, 3, 4`
(frame `[1, 2]` before speech, speech start, confirmation-window frame
`[3, 4]`, timer fire with speech active), the single flushed chunk is
`[1, 2, 3, 4, 3, 4]`: the confirmation-window samples `3` and `4` appear
twice (once inside the ring-buffer lookback and once from the temp buffer),
so the chunk does not contain every sample at most once as the claim
states. -/
theorem speech_onset_flush_counterexample :
    (capRun [CapEvent.frame [1, 2] false 0, CapEvent.speechStart,
        CapEvent.frame [3, 4] true 0, CapEvent.timerFire 0 true 0]
      (startState 2)).flushLog = [[1, 2, 3, 4, 3, 4]] ∧
    ((capRun [CapEvent.frame [1, 2] false 0, CapEvent.speechStart,
        CapEvent.frame [3, 4] true 0, CapEvent.timerFire 0 true 0]
      (startState 2)).flushLog.flatten).count 3 = 2 := by
  decide

theorem capStep_frame_timers (s : APM) (d : List Int) (v : Bool) (n : Nat) :
    (capStep s (CapEvent.frame d v n)).scheduledTimers = s.scheduledTimers ∧
    (capStep s (CapEvent.frame d v n)).nextTimerId = s.nextTimerId := by
  cases hrg : s.ring <;> cases v <;>
    cases hst : s.speechStartTimeout <;>
      simp only [capStep, appendToBufferAPM, hrg, hst] <;>
      constructor <;>
      simp only [apply_ite APM.scheduledTimers, apply_ite APM.nextTimerId, ite_self]

theorem capStep_timerFire_not_scheduled (w : APM) (id : Nat) (v : Bool) (n : Nat)
    (h : id ∉ w.scheduledTimers) :
    capStep w (CapEvent.timerFire id v n) = w := by
  simp [capStep, h]

theorem timerGone_step {id : Nat} {s : APM} (e : CapEvent) (h : TimerGone id s) :
    TimerGone id (capStep s e) := by
  obtain ⟨hmem, hlt⟩ := h
  cases e with
  | frame data vad now =>
    have hf := capStep_frame_timers s data vad now
    exact ⟨hf.1 ▸ hmem, hf.2 ▸ hlt⟩
  | speechStart =>
    constructor
    · simp only [capStep, List.mem_append, List.mem_singleton]
      rintro (hc | hc)
      · exact hmem hc
      · omega
    · simp only [capStep]
      omega
  | speechEnd =>
    cases hst : s.speechStartTimeout with
    | some tid =>
      constructor
      · simp only [capStep, hst]
        intro hc
        exact hmem (List.mem_of_mem_filter hc)
      · simp only [capStep, hst]
        exact hlt
    | none =>
      constructor
      · simp only [capStep, hst]
        split <;> exact hmem
      · simp only [capStep, hst]
        split <;> exact hlt
  | timerFire tid v n =>
    by_cases htid : tid ∈ s.scheduledTimers
    · cases v <;>
        simp only [capStep, htid, if_true, reduceIte] <;>
        constructor <;>
        first
          | (intro hc; exact hmem (List.mem_of_mem_filter hc))
          | exact hlt
    · rw [capStep_timerFire_not_scheduled s tid v n htid]
      exact ⟨hmem, hlt⟩

theorem timerGone_run {id : Nat} (evs : List CapEvent) :
    ∀ (s : APM), TimerGone id s → TimerGone id (capRun evs s) := by
  induction evs with
  | nil => intro s h; exact h
  | cons e rest ih =>
    intro s h
    rw [capRun_cons]
    exact ih _ (timerGone_step e h)

/-- C5: when `onSpeechEnd` fires while the 500 ms confirmation timer is still
pending, exactly one flush occurs — with the ring-buffer lookback
concatenated with whatever is in the temp buffer at that moment — the timer
is cancelled, and no firing of that cancelled timer can ever flush again:
after the cancellation the handle is never scheduled again, and a `timerFire`
for an unscheduled handle leaves the state (in particular the flush log)
unchanged. -/
theorem early_speech_end_single_flush (s : APM) (id : Nat)
    (h : s.speechStartTimeout = some id) (hid : id < s.nextTimerId) :
    (capStep s CapEvent.speechEnd).flushLog =
      s.flushLog ++ [combineBuffers (getBufferedAudioAPM s) s.tempBuffer] ∧
    (capStep s CapEvent.speechEnd).speechStartTimeout = none ∧
    (∀ evs, id ∉ (capRun evs (capStep s CapEvent.speechEnd)).scheduledTimers) ∧
    (∀ (w : APM) (v : Bool) (n : Nat), id ∉ w.scheduledTimers →
      capStep w (CapEvent.timerFire id v n) = w) := by
  have hgone : TimerGone id (capStep s CapEvent.speechEnd) := by
    constructor
    · simp only [capStep, h]
      intro hc
      have := List.of_mem_filter hc
      simp at this
    · simp only [capStep, h]
      exact hid
  refine ⟨?_, ?_, ?_, ?_⟩
  · simp only [capStep, h]
    rfl
  · simp only [capStep, h]
  · intro evs
    exact (timerGone_run evs _ hgone).1
  · intro w v n hw
    exact capStep_timerFire_not_scheduled w id v n hw

theorem early_speech_end_single_flush_witness :
    (capStep (capRun [CapEvent.speechStart] (startState 1))
        CapEvent.speechEnd).speechStartTimeout = none :=
  (early_speech_end_single_flush (capRun [CapEvent.speechStart] (startState 1)) 0
    rfl (by decide)).2.1

/-- C8 evaluated on the code: after a successful `setupAudioCapture` (native
rate 48000 Hz) followed by `releaseAudioResources()`, every resource the
release function knows about is reset (VAD, timer, worklet node, mic source,
audio context, ring buffer, temp buffer, post-delay buffer, last-flush time,
native sample rate) — but the tracks of the `MediaStream` granted by
`getUserMedia` are still running, because `setupAudioCapture` never assigns
the stream to `this.audioStream` and the release loop therefore never calls
`track.stop()` on it.  The microphone is left on, contradicting the claim. -/
theorem release_leaves_mic_tracks_running :
    (releaseAudioResources (startState 48000)).streamTracksLive = true ∧
    (releaseAudioResources (startState 48000)).audioStream = none ∧
    (releaseAudioResources (startState 48000)).vadInstance = false ∧
    (releaseAudioResources (startState 48000)).speechStartTimeout = none ∧
    (releaseAudioResources (startState 48000)).audioWorkletNode = false ∧
    (releaseAudioResources (startState 48000)).micSource = false ∧
    (releaseAudioResources (startState 48000)).audioContext = false ∧
    (releaseAudioResources (startState 48000)).ring = none ∧
    (releaseAudioResources (startState 48000)).tempBuffer = [] ∧
    (releaseAudioResources (startState 48000)).postDelayBuffer = [] ∧
    (releaseAudioResources (startState 48000)).lastSendTime = none ∧
    (releaseAudioResources (startState 48000)).nativeSampleRate = none :=
  ⟨rfl, rfl, rfl, rfl, rfl, rfl, rfl, rfl, rfl, rfl, rfl, rfl⟩

theorem logOnL_append_one (l : List (Nat × WireMsg)) (m n : Nat) (w : WireMsg) :
    logOnL (l ++ [(m, w)]) n = logOnL l n ++ (if m = n then [w] else []) := by
  by_cases h : m = n <;> simp [logOnL, List.filter_append, h]

theorem logOnL_fresh : ∀ (l : List (Nat × WireMsg)) (m : Nat),
    (∀ e ∈ l, e.1 < m) → logOnL l m = [] := by
  intro l m h
  induction l with
  | nil => rfl
  | cons a t ih =>
    have ha : ¬ (a.1 = m) := by
      have := h a (List.mem_cons_self a t)
      omega
    have ht : ∀ e ∈ t, e.1 < m := fun e he => h e (List.mem_cons_of_mem a he)
    have hb : (a.1 == m) = false := by simpa using ha
    simp only [logOnL, List.filter_cons, hb, Bool.false_eq_true, if_false]
    exact ih ht

theorem head_append_of_ne_nil {l t : List WireMsg} (h : l ≠ []) :
    (l ++ t).head? = l.head? := by
  cases l with
  | nil => exact absurd rfl h
  | cons a l' => rfl

theorem count_config_append (l : List WireMsg) (t : List WireMsg) :
    (l ++ t).count WireMsg.config = l.count WireMsg.config + t.count WireMsg.config :=
  List.count_append ..

theorem wsInv_init : WSInv initWSClient := by
  constructor <;> simp [configCount, logOn, logOnL, initWSClient]

theorem configCount_eq {X : WSClient} {l : List (Nat × WireMsg)}
    (h : X.sentLog = l) (n : Nat) :
    configCount X n = (logOnL l n).count WireMsg.config := by
  rw [configCount, logOn, h]

theorem logOn_eq {X : WSClient} {l : List (Nat × WireMsg)}
    (h : X.sentLog = l) (n : Nat) : logOn X n = logOnL l n := by
  rw [logOn, h]

/-- `WSInv` is preserved when only promise/timeout bookkeeping changes and the
callback log grows. -/
theorem wsInv_carry {s s' : WSClient} (hinv : WSInv s)
    (hlog : s'.sentLog = s.sentLog) (hsock : s'.socket = s.socket)
    (hflag : s'.isInitialConfigSent = s.isInitialConfigSent)
    (hcre : s'.socketsCreated = s.socketsCreated)
    (hconn : s'.isConnected = s.isConnected)
    (hcb : ∀ c ∈ s.callbackLog, c ∈ s'.callbackLog) : WSInv s' := by
  constructor
  · intro n
    rw [configCount_eq hlog]
    exact hinv.conf_le n
  · intro e he
    rw [hlog] at he
    rw [hcre]
    exact hinv.log_lt e he
  · intro sock h
    rw [hsock] at h
    rw [hcre]
    exact hinv.sock_lt sock h
  · intro sock h hf
    rw [hsock] at h
    rw [hflag] at hf
    rw [configCount_eq hlog]
    exact hinv.unsent sock h hf
  · intro sock h hr
    rw [hsock] at h
    rw [logOn_eq hlog]
    exact hinv.connecting_empty sock h hr
  · intro n
    rw [logOn_eq hlog]
    exact hinv.head_config n
  · intro sock h hr
    rw [hsock] at h
    rw [hflag, configCount_eq hlog]
    exact hinv.open_sent sock h hr
  · intro hc
    rw [hconn] at hc
    exact hcb _ (hinv.conn_cb hc)
  · intro hc
    rw [hconn] at hc
    obtain ⟨sock, hs, ho⟩ := hinv.conn_open hc
    exact ⟨sock, by rw [hsock]; exact hs, ho⟩

/-- Sending one message `w` on the currently `OPEN` socket (which already
carries its configuration message) preserves the invariant. -/
theorem wsInv_send {s s' : WSClient} (hinv : WSInv s) (sock : SockSt)
    (hsock0 : s.socket = some sock) (hopen : sock.readyState = ReadyState.OPEN)
    (w : WireMsg) (hw : w ≠ WireMsg.config)
    (hlog : s'.sentLog = s.sentLog ++ [(sock.id, w)]) (hsock : s'.socket = s.socket)
    (hflag : s'.isInitialConfigSent = s.isInitialConfigSent)
    (hcre : s'.socketsCreated = s.socketsCreated)
    (hconn : s'.isConnected = true → s.isConnected = true)
    (hcb : s'.callbackLog = s.callbackLog) : WSInv s' := by
  have hcount0 : ([(sock.id, w)] : List (Nat × WireMsg)) = [(sock.id, w)] := rfl
  have hcnt : ∀ n, (logOnL (s.sentLog ++ [(sock.id, w)]) n).count WireMsg.config =
      configCount s n := by
    intro n
    rw [logOnL_append_one]
    by_cases hn : sock.id = n
    · rw [if_pos hn, count_config_append]
      have : ([w].count WireMsg.config) = 0 := by
        simp [List.count_singleton]
        intro hweq
        exact hw hweq
      rw [this]
      rfl
    · rw [if_neg hn, List.append_nil]
      rfl
  have hne : logOn s sock.id ≠ [] := by
    have := (hinv.open_sent sock hsock0 hopen).2
    intro hnil
    rw [configCount, hnil] at this
    simp at this
  constructor
  · intro n
    rw [configCount_eq hlog, hcnt]
    exact hinv.conf_le n
  · intro e he
    rw [hlog] at he
    rw [hcre]
    rcases List.mem_append.mp he with h | h
    · exact hinv.log_lt e h
    · have : e = (sock.id, w) := by simpa using h
      subst this
      exact hinv.sock_lt sock hsock0
  · intro sk h
    rw [hsock] at h
    rw [hcre]
    exact hinv.sock_lt sk h
  · intro sk h hf
    rw [hsock] at h
    rw [hflag] at hf
    rw [configCount_eq hlog, hcnt]
    exact hinv.unsent sk h hf
  · intro sk h hr
    rw [hsock, hsock0] at h
    cases h
    rw [hopen] at hr
    cases hr
  · intro n
    rw [logOn_eq hlog, logOnL_append_one]
    by_cases hn : sock.id = n
    · right
      rw [if_pos hn]
      rw [← hn]
      rw [show logOnL s.sentLog sock.id = logOn s sock.id from rfl]
      rw [head_append_of_ne_nil hne]
      rcases hinv.head_config sock.id with h | h
      · exact absurd h hne
      · exact h
    · rw [if_neg hn, List.append_nil]
      exact hinv.head_config n
  · intro sk h hr
    rw [hsock] at h
    rw [hflag, configCount_eq hlog, hcnt]
    exact hinv.open_sent sk h hr
  · intro hc
    rw [hcb]
    exact hinv.conn_cb (hconn hc)
  · intro hc
    obtain ⟨sk, hs, ho⟩ := hinv.conn_open (hconn hc)
    exact ⟨sk, by rw [hsock]; exact hs, ho⟩

theorem wsInv_create {s : WSClient} (hinv : WSInv s)
    (hic : s.isConnected = false) : WSInv (createSocket s) := by
  have hfresh : logOnL s.sentLog s.socketsCreated = [] :=
    logOnL_fresh s.sentLog s.socketsCreated hinv.log_lt
  constructor
  · intro n
    rw [configCount_eq (show (createSocket s).sentLog = s.sentLog from rfl)]
    exact hinv.conf_le n
  · intro e he
    have h1 : (createSocket s).sentLog = s.sentLog := rfl
    rw [h1] at he
    have h2 : (createSocket s).socketsCreated = s.socketsCreated + 1 := rfl
    rw [h2]
    have := hinv.log_lt e he
    omega
  · intro sk h
    have h1 : (createSocket s).socket =
        some ⟨s.socketsCreated, ReadyState.CONNECTING, s.connectCalls.length⟩ := rfl
    rw [h1] at h
    injection h with h2
    subst h2
    have h3 : (createSocket s).socketsCreated = s.socketsCreated + 1 := rfl
    rw [h3]
    show s.socketsCreated < s.socketsCreated + 1
    omega
  · intro sk h _
    have h1 : (createSocket s).socket =
        some ⟨s.socketsCreated, ReadyState.CONNECTING, s.connectCalls.length⟩ := rfl
    rw [h1] at h
    injection h with h2
    subst h2
    rw [configCount_eq (show (createSocket s).sentLog = s.sentLog from rfl)]
    rw [show (⟨s.socketsCreated, ReadyState.CONNECTING, s.connectCalls.length⟩ :
      SockSt).id = s.socketsCreated from rfl]
    rw [hfresh]
    rfl
  · intro sk h _
    have h1 : (createSocket s).socket =
        some ⟨s.socketsCreated, ReadyState.CONNECTING, s.connectCalls.length⟩ := rfl
    rw [h1] at h
    injection h with h2
    subst h2
    rw [logOn_eq (show (createSocket s).sentLog = s.sentLog from rfl)]
    exact hfresh
  · intro n
    rw [logOn_eq (show (createSocket s).sentLog = s.sentLog from rfl)]
    exact hinv.head_config n
  · intro sk h hr
    have h1 : (createSocket s).socket =
        some ⟨s.socketsCreated, ReadyState.CONNECTING, s.connectCalls.length⟩ := rfl
    rw [h1] at h
    injection h with h2
    subst h2
    simp at hr
  · intro hc
    have h1 : (createSocket s).isConnected = s.isConnected := rfl
    rw [h1, hic] at hc
    simp at hc
  · intro hc
    have h1 : (createSocket s).isConnected = s.isConnected := rfl
    rw [h1, hic] at hc
    simp at hc

theorem wsInv_open {s s' : WSClient} (hinv : WSInv s) (sock : SockSt)
    (hsock0 : s.socket = some sock) (hcn : sock.readyState = ReadyState.CONNECTING)
    (hlog : s'.sentLog = s.sentLog ++ [(sock.id, WireMsg.config)])
    (hsock : s'.socket = some ⟨sock.id, ReadyState.OPEN, sock.promiseIdx⟩)
    (hflag : s'.isInitialConfigSent = true)
    (hcre : s'.socketsCreated = s.socketsCreated)
    (hconn : s'.isConnected = true)
    (hcb : s'.callbackLog = s.callbackLog ++ [CB.connection]) : WSInv s' := by
  have hempty : logOn s sock.id = [] := hinv.connecting_empty sock hsock0 hcn
  have h0 : configCount s sock.id = 0 := by
    rw [configCount, hempty]
    rfl
  have hcnt : ∀ n, (logOnL (s.sentLog ++ [(sock.id, WireMsg.config)]) n).count
      WireMsg.config = configCount s n + (if sock.id = n then 1 else 0) := by
    intro n
    rw [logOnL_append_one]
    by_cases hn : sock.id = n
    · rw [if_pos hn, if_pos hn, count_config_append]
      simp [List.count_singleton]
      rfl
    · rw [if_neg hn, if_neg hn, List.append_nil]
      simp
      rfl
  constructor
  · intro n
    rw [configCount_eq hlog, hcnt]
    by_cases hn : sock.id = n
    · rw [← hn, h0, if_pos rfl]
    · rw [if_neg hn]
      have := hinv.conf_le n
      omega
  · intro e he
    rw [hlog] at he
    rw [hcre]
    rcases List.mem_append.mp he with h | h
    · exact hinv.log_lt e h
    · have he2 : e = (sock.id, WireMsg.config) := by simpa using h
      subst he2
      exact hinv.sock_lt sock hsock0
  · intro sk h
    rw [hsock] at h
    injection h with h2
    subst h2
    rw [hcre]
    exact hinv.sock_lt sock hsock0
  · intro sk h hf
    rw [hflag] at hf
    simp at hf
  · intro sk h hr
    rw [hsock] at h
    injection h with h2
    subst h2
    simp at hr
  · intro n
    rw [logOn_eq hlog, logOnL_append_one]
    by_cases hn : sock.id = n
    · right
      rw [if_pos hn, ← hn,
        show logOnL s.sentLog sock.id = logOn s sock.id from rfl, hempty]
      rfl
    · rw [if_neg hn, List.append_nil]
      exact hinv.head_config n
  · intro sk h hr
    rw [hsock] at h
    injection h with h2
    subst h2
    refine ⟨hflag, ?_⟩
    rw [configCount_eq hlog, hcnt]
    rw [show (⟨sock.id, ReadyState.OPEN, sock.promiseIdx⟩ : SockSt).id = sock.id from rfl]
    rw [h0, if_pos rfl]
  · intro _
    rw [hcb]
    exact List.mem_append_right _ (by simp)
  · intro _
    exact ⟨⟨sock.id, ReadyState.OPEN, sock.promiseIdx⟩, hsock, rfl⟩

theorem wsInv_retire {s s' : WSClient} (hinv : WSInv s) (sock : SockSt)
    (hsock0 : s.socket = some sock) (rs' : ReadyState)
    (hrs1 : rs' ≠ ReadyState.CONNECTING) (hrs2 : rs' ≠ ReadyState.OPEN)
    (hlog : s'.sentLog = s.sentLog)
    (hsock : s'.socket = some ⟨sock.id, rs', sock.promiseIdx⟩)
    (hflag : s'.isInitialConfigSent = s.isInitialConfigSent)
    (hcre : s'.socketsCreated = s.socketsCreated)
    (hconn : s'.isConnected = false)
    (hcb : ∀ c ∈ s.callbackLog, c ∈ s'.callbackLog) : WSInv s' := by
  constructor
  · intro n
    rw [configCount_eq hlog]
    exact hinv.conf_le n
  · intro e he
    rw [hlog] at he
    rw [hcre]
    exact hinv.log_lt e he
  · intro sk h
    rw [hsock] at h
    injection h with h2
    subst h2
    rw [hcre]
    exact hinv.sock_lt sock hsock0
  · intro sk h hf
    rw [hsock] at h
    injection h with h2
    subst h2
    rw [hflag] at hf
    rw [configCount_eq hlog]
    exact hinv.unsent sock hsock0 hf
  · intro sk h hr
    rw [hsock] at h
    injection h with h2
    subst h2
    exact absurd hr hrs1
  · intro n
    rw [logOn_eq hlog]
    exact hinv.head_config n
  · intro sk h hr
    rw [hsock] at h
    injection h with h2
    subst h2
    exact absurd hr hrs2
  · intro hc
    rw [hconn] at hc
    simp at hc
  · intro hc
    rw [hconn] at hc
    simp at hc

theorem wsInv_dropSocket {s s' : WSClient} (hinv : WSInv s)
    (hlog : s'.sentLog = s.sentLog) (hsock : s'.socket = none)
    (hcre : s'.socketsCreated = s.socketsCreated)
    (hconn : s'.isConnected = false)
    (hcb : ∀ c ∈ s.callbackLog, c ∈ s'.callbackLog) : WSInv s' := by
  constructor
  · intro n
    rw [configCount_eq hlog]
    exact hinv.conf_le n
  · intro e he
    rw [hlog] at he
    rw [hcre]
    exact hinv.log_lt e he
  · intro sk h
    rw [hsock] at h
    exact Option.noConfusion h
  · intro sk h
    rw [hsock] at h
    exact Option.noConfusion h
  · intro sk h
    rw [hsock] at h
    exact Option.noConfusion h
  · intro n
    rw [logOn_eq hlog]
    exact hinv.head_config n
  · intro sk h
    rw [hsock] at h
    exact Option.noConfusion h
  · intro hc
    rw [hconn] at hc
    simp at hc
  · intro hc
    rw [hconn] at hc
    simp at hc

theorem wsInv_step {s : WSClient} (hinv : WSInv s) (e : WSEvent) :
    WSInv (wsStep s e) := by
  cases e with
  | connectCall =>
    cases hsock : s.socket with
    | none =>
      have hic : s.isConnected = false := by
        cases hic2 : s.isConnected
        · rfl
        · obtain ⟨sk, hs, _⟩ := hinv.conn_open hic2
          rw [hsock] at hs
          exact Option.noConfusion hs
      have hstep : wsStep s WSEvent.connectCall = createSocket s := by
        simp [wsStep, hsock]
      rw [hstep]
      exact wsInv_create hinv hic
    | some sock =>
      by_cases hg : sock.readyState = ReadyState.OPEN ∨
          sock.readyState = ReadyState.CONNECTING
      · have hstep : wsStep s WSEvent.connectCall =
            { s with connectCalls := s.connectCalls ++ [PStatus.resolved] } := by
          simp [wsStep, hsock, hg]
        rw [hstep]
        exact wsInv_carry hinv rfl rfl rfl rfl rfl (fun c hc => hc)
      · have hic : s.isConnected = false := by
          cases hic2 : s.isConnected
          · rfl
          · obtain ⟨sk, hs, ho⟩ := hinv.conn_open hic2
            rw [hsock] at hs
            injection hs with hs2
            subst hs2
            exact absurd (Or.inl ho) hg
        have hstep : wsStep s WSEvent.connectCall = createSocket s := by
          simp [wsStep, hsock, hg]
        rw [hstep]
        exact wsInv_create hinv hic
  | openEvt =>
    cases hsock : s.socket with
    | none =>
      have hstep : wsStep s WSEvent.openEvt = s := by simp [wsStep, hsock]
      rw [hstep]
      exact hinv
    | some sock =>
      by_cases hg : sock.readyState = ReadyState.CONNECTING
      · exact wsInv_open hinv sock hsock hg
          (by simp [wsStep, hsock, hg, sendInitialConfigFn])
          (by simp [wsStep, hsock, hg, sendInitialConfigFn])
          (by simp [wsStep, hsock, hg, sendInitialConfigFn])
          (by simp [wsStep, hsock, hg, sendInitialConfigFn])
          (by simp [wsStep, hsock, hg, sendInitialConfigFn])
          (by simp [wsStep, hsock, hg, sendInitialConfigFn])
      · have hstep : wsStep s WSEvent.openEvt = s := by simp [wsStep, hsock, hg]
        rw [hstep]
        exact hinv
  | closeEvt code reason =>
    cases hsock : s.socket with
    | none =>
      have hstep : wsStep s (WSEvent.closeEvt code reason) = s := by
        simp [wsStep, hsock]
      rw [hstep]
      exact hinv
    | some sock =>
      by_cases hg : sock.readyState = ReadyState.CLOSED
      · have hstep : wsStep s (WSEvent.closeEvt code reason) = s := by
          simp [wsStep, hsock, hg]
        rw [hstep]
        exact hinv
      · refine wsInv_retire hinv sock hsock ReadyState.CLOSED (by simp) (by simp)
          (by simp [wsStep, hsock, hg]) (by simp [wsStep, hsock, hg])
          (by simp [wsStep, hsock, hg]) (by simp [wsStep, hsock, hg])
          (by simp [wsStep, hsock, hg]) ?_
        intro c hc
        have hcb : (wsStep s (WSEvent.closeEvt code reason)).callbackLog =
            s.callbackLog ++
              (if s.isConnected then [CB.disconnection code reason] else []) := by
          simp [wsStep, hsock, hg]
        rw [hcb]
        exact List.mem_append_left _ hc
  | errorEvt =>
    cases hsock : s.socket with
    | none =>
      have hstep : wsStep s WSEvent.errorEvt = s := by simp [wsStep, hsock]
      rw [hstep]
      exact hinv
    | some sock =>
      by_cases hg : sock.readyState = ReadyState.CLOSED
      · have hstep : wsStep s WSEvent.errorEvt = s := by simp [wsStep, hsock, hg]
        rw [hstep]
        exact hinv
      · refine wsInv_retire hinv sock hsock ReadyState.CLOSING (by simp) (by simp)
          (by simp [wsStep, hsock, hg]) (by simp [wsStep, hsock, hg])
          (by simp [wsStep, hsock, hg]) (by simp [wsStep, hsock, hg])
          (by simp [wsStep, hsock, hg]) ?_
        intro c hc
        have hcb : (wsStep s WSEvent.errorEvt).callbackLog =
            s.callbackLog ++ [CB.error] := by
          simp [wsStep, hsock, hg]
        rw [hcb]
        exact List.mem_append_left _ hc
  | sendAudio =>
    by_cases hic : s.isConnected = true
    · cases hsock : s.socket with
      | none =>
        have hstep : wsStep s WSEvent.sendAudio = s := by simp [wsStep, hsock, hic]
        rw [hstep]
        exact hinv
      | some sock =>
        by_cases hg : sock.readyState = ReadyState.OPEN
        · have hflag : s.isInitialConfigSent = true :=
            (hinv.open_sent sock hsock hg).1
          exact wsInv_send hinv sock hsock hg WireMsg.audio (by simp)
            (by simp [wsStep, hsock, hg, hic, hflag])
            (by simp [wsStep, hsock, hg, hic, hflag])
            (by simp [wsStep, hsock, hg, hic, hflag])
            (by simp [wsStep, hsock, hg, hic, hflag])
            (fun _ => hic)
            (by simp [wsStep, hsock, hg, hic, hflag])
        · have hstep : wsStep s WSEvent.sendAudio = s := by
            simp [wsStep, hsock, hg, hic]
          rw [hstep]
          exact hinv
    · have hic2 : s.isConnected = false := by
        cases h2 : s.isConnected
        · rfl
        · exact absurd h2 hic
      have hstep : wsStep s WSEvent.sendAudio = s := by
        simp [wsStep, hic2]
      rw [hstep]
      exact hinv
  | endTranscriptionCall =>
    cases hsock : s.socket with
    | none =>
      have hstep : wsStep s WSEvent.endTranscriptionCall = s := by simp [wsStep, hsock]
      rw [hstep]
      exact hinv
    | some sock =>
      by_cases hg : sock.readyState = ReadyState.OPEN
      · exact wsInv_send hinv sock hsock hg WireMsg.endOfAudio (by simp)
          (by simp [wsStep, hsock, hg]) (by simp [wsStep, hsock, hg])
          (by simp [wsStep, hsock, hg]) (by simp [wsStep, hsock, hg])
          (fun h => by simpa [wsStep, hsock, hg] using h)
          (by simp [wsStep, hsock, hg])
      · have hstep : wsStep s WSEvent.endTranscriptionCall = s := by
          simp [wsStep, hsock, hg]
        rw [hstep]
        exact hinv
  | closeCall =>
    cases hsock : s.socket with
    | none =>
      have hstep : wsStep s WSEvent.closeCall = s := by simp [wsStep, hsock]
      rw [hstep]
      exact hinv
    | some sock =>
      by_cases hg : sock.readyState = ReadyState.OPEN
      · have hmid : WSInv
            { s with sentLog := s.sentLog ++ [(sock.id, WireMsg.closeNotif)] } :=
          wsInv_send hinv sock hsock hg WireMsg.closeNotif (by simp)
            rfl rfl rfl rfl (fun h => h) rfl
        exact wsInv_dropSocket hmid
          (by simp [wsStep, hsock, hg]) (by simp [wsStep, hsock, hg])
          (by simp [wsStep, hsock, hg]) (by simp [wsStep, hsock, hg])
          (fun c hc => by simpa [wsStep, hsock, hg] using hc)
      · exact wsInv_dropSocket hinv
          (by simp [wsStep, hsock, hg]) (by simp [wsStep, hsock, hg])
          (by simp [wsStep, hsock, hg]) (by simp [wsStep, hsock, hg])
          (fun c hc => by simpa [wsStep, hsock, hg] using hc)
  | timeoutFire i p =>
    by_cases hmem : (i, p) ∈ s.armedTimeouts
    · cases hsock : s.socket with
      | none =>
        exact wsInv_carry hinv
          (by simp [wsStep, hsock, hmem]) (by simp [wsStep, hsock, hmem])
          (by simp [wsStep, hsock, hmem]) (by simp [wsStep, hsock, hmem])
          (by simp [wsStep, hsock, hmem])
          (fun c hc => by simpa [wsStep, hsock, hmem] using hc)
      | some sock =>
        by_cases hg : sock.readyState = ReadyState.OPEN
        · exact wsInv_carry hinv
            (by simp [wsStep, hsock, hmem, hg]) (by simp [wsStep, hsock, hmem, hg])
            (by simp [wsStep, hsock, hmem, hg]) (by simp [wsStep, hsock, hmem, hg])
            (by simp [wsStep, hsock, hmem, hg])
            (fun c hc => by simpa [wsStep, hsock, hmem, hg] using hc)
        · have hic : s.isConnected = false := by
            cases hic2 : s.isConnected
            · rfl
            · obtain ⟨sk, hs, ho⟩ := hinv.conn_open hic2
              rw [hsock] at hs
              injection hs with hs2
              subst hs2
              exact absurd ho hg
          exact wsInv_retire hinv sock hsock ReadyState.CLOSING (by simp) (by simp)
            (by simp [wsStep, hsock, hmem, hg]) (by simp [wsStep, hsock, hmem, hg])
            (by simp [wsStep, hsock, hmem, hg]) (by simp [wsStep, hsock, hmem, hg])
            (by simp [wsStep, hsock, hmem, hg, hic])
            (fun c hc => by simpa [wsStep, hsock, hmem, hg] using hc)
    · have hstep : wsStep s (WSEvent.timeoutFire i p) = s := by simp [wsStep, hmem]
      rw [hstep]
      exact hinv

theorem wsInv_run : ∀ (evs : List WSEvent) (s : WSClient), WSInv s →
    WSInv (wsRunFrom evs s) := by
  intro evs
  induction evs with
  | nil => intro s h; exact h
  | cons e rest ih =>
    intro s h
    exact ih _ (wsInv_step h e)

/-- C4: the handshake-once claim fails on the real program because `close()`
calls `socket.close()` only on an `OPEN` socket: a socket abandoned while
still `CONNECTING` keeps connecting with its handlers attached
(`wsXStep` models those stale handler firings).  On the concrete trace
connect → close (socket 0 abandoned while `CONNECTING`) → connect →
open (socket 1) → late open of stale socket 0, the stale `onopen` handler
resets `isInitialConfigSent` and calls `sendInitialConfig()`, which sends on
the *current* socket: two configuration messages go out on socket 1 — the
same connection — so the configuration message is not sent exactly once per
connection. -/
theorem handshake_double_send :
    configCount (wsXRun [WSXEvent.act WSEvent.connectCall,
        WSXEvent.act WSEvent.closeCall, WSXEvent.act WSEvent.connectCall,
        WSXEvent.act WSEvent.openEvt, WSXEvent.staleOpen 0]).cur 1 = 2 ∧
    (wsXRun [WSXEvent.act WSEvent.connectCall, WSXEvent.act WSEvent.closeCall,
        WSXEvent.act WSEvent.connectCall, WSXEvent.act WSEvent.openEvt,
        WSXEvent.staleOpen 0]).cur.socket =
      some ⟨1, ReadyState.OPEN, 1⟩ ∧
    logOn (wsXRun [WSXEvent.act WSEvent.connectCall,
        WSXEvent.act WSEvent.closeCall, WSXEvent.act WSEvent.connectCall,
        WSXEvent.act WSEvent.openEvt, WSXEvent.staleOpen 0]).cur 1 =
      [WireMsg.config, WireMsg.config] :=
  ⟨rfl, rfl, rfl⟩

/-- C6 counterexample: on the trace connect → open → error → close (a
network failure on an established connection whose error event precedes its
close event), the client had previously reached `Connected` (the connection
callback fired), but the close event does not invoke the disconnection
callback: `onerror` already reset `isConnected`, so `onclose` sees
`wasConnected === false`.  The claim requires the disconnection callback to
be invoked with the close code and reason in this situation. -/
theorem disconnect_report_counterexample :
    (wsRun [WSEvent.connectCall, WSEvent.openEvt, WSEvent.errorEvt,
        WSEvent.closeEvt 1006 "abnormal closure"]).callbackLog =
      [CB.connection, CB.error] ∧
    CB.disconnection 1006 "abnormal closure" ∉
      (wsRun [WSEvent.connectCall, WSEvent.openEvt, WSEvent.errorEvt,
        WSEvent.closeEvt 1006 "abnormal closure"]).callbackLog := by
  have hlog : (wsRun [WSEvent.connectCall, WSEvent.openEvt, WSEvent.errorEvt,
      WSEvent.closeEvt 1006 "abnormal closure"]).callbackLog =
      [CB.connection, CB.error] := rfl
  refine ⟨hlog, ?_⟩
  rw [hlog]
  decide

/-- C6 (amended): a close event invokes the disconnection callback with the
close code and reason exactly when `isConnected` is still true at the moment
the close event arrives; `isConnected = true` implies the client had
previously reached `Connected` (the connection callback was invoked), so a
failure during `Connecting` is reported through the error callback alone —
but an error event on an established connection also resets `isConnected`,
so a close event that follows such an error does not invoke the
disconnection callback either. -/
theorem disconnect_reporting (evs : List WSEvent) (code : Nat) (reason : String) :
    (∀ sock, (wsRun evs).socket = some sock → sock.readyState ≠ ReadyState.CLOSED →
      (wsStep (wsRun evs) (WSEvent.closeEvt code reason)).callbackLog =
        (wsRun evs).callbackLog ++
          (if (wsRun evs).isConnected then [CB.disconnection code reason] else [])) ∧
    ((wsRun evs).isConnected = true → CB.connection ∈ (wsRun evs).callbackLog) := by
  have hinv := wsInv_run evs initWSClient wsInv_init
  refine ⟨?_, hinv.conn_cb⟩
  intro sock h hne
  simp [wsStep, h, hne]

theorem disconnect_reporting_witness :
    (wsStep (wsRun [WSEvent.connectCall, WSEvent.openEvt])
        (WSEvent.closeEvt 1000 "done")).callbackLog =
      [CB.connection, CB.disconnection 1000 "done"] := by
  have h := (disconnect_reporting [WSEvent.connectCall, WSEvent.openEvt]
    1000 "done").1 ⟨0, ReadyState.OPEN, 0⟩ rfl (by decide)
  rw [h]
  rfl

theorem settle_get_ne (l : List PStatus) (q p : Nat) (st : PStatus) (h : q ≠ p) :
    (settle l q st).get? p = l.get? p := by
  rw [settle]
  split
  · exact List.get?_set_ne st l h
  · rfl

theorem get_append_one (l : List PStatus) (x : PStatus) (p : Nat)
    (h : p < l.length) : (l ++ [x]).get? p = l.get? p :=
  List.get?_append h

theorem stuck_lt {s : WSClient} {p : Nat} (h : StuckPromise s p) :
    p < s.connectCalls.length := by
  by_contra hc
  have h0 := h.1
  rw [List.get?_eq_none.mpr (le_of_not_lt hc)] at h0
  exact Option.noConfusion h0

theorem stuck_create {s : WSClient} {p : Nat} (h : StuckPromise s p) :
    StuckPromise (createSocket s) p := by
  obtain ⟨hpend, harm, hsock⟩ := h
  have hplt : p < s.connectCalls.length := stuck_lt ⟨hpend, harm, hsock⟩
  refine ⟨?_, ?_, ?_⟩
  · show (s.connectCalls ++ [PStatus.pending]).get? p = some PStatus.pending
    rw [get_append_one _ _ _ hplt]
    exact hpend
  · intro tp htp
    have htp2 : tp ∈ s.armedTimeouts ++ [(s.socketsCreated, s.connectCalls.length)] :=
      htp
    rcases List.mem_append.mp htp2 with h1 | h1
    · exact harm tp h1
    · have : tp = (s.socketsCreated, s.connectCalls.length) := by simpa using h1
      subst this
      show s.connectCalls.length ≠ p
      omega
  · intro sock hs hpi
    have hs2 : (some ⟨s.socketsCreated, ReadyState.CONNECTING, s.connectCalls.length⟩ :
        Option SockSt) = some sock := hs
    injection hs2 with hs3
    subst hs3
    have : s.connectCalls.length = p := hpi
    omega

theorem stuck_step {s : WSClient} {p : Nat} (h : StuckPromise s p) (e : WSEvent) :
    StuckPromise (wsStep s e) p := by
  obtain ⟨hpend, harm, hsock⟩ := h
  have hplt : p < s.connectCalls.length := stuck_lt ⟨hpend, harm, hsock⟩
  cases e with
  | connectCall =>
    cases hsk : s.socket with
    | none =>
      have hstep : wsStep s WSEvent.connectCall = createSocket s := by
        simp [wsStep, hsk]
      rw [hstep]
      exact stuck_create ⟨hpend, harm, hsock⟩
    | some sock =>
      by_cases hg : sock.readyState = ReadyState.OPEN ∨
          sock.readyState = ReadyState.CONNECTING
      · have hstep : wsStep s WSEvent.connectCall =
            { s with connectCalls := s.connectCalls ++ [PStatus.resolved] } := by
          simp [wsStep, hsk, hg]
        rw [hstep]
        refine ⟨?_, harm, ?_⟩
        · show (s.connectCalls ++ [PStatus.resolved]).get? p = some PStatus.pending
          rw [get_append_one _ _ _ hplt]
          exact hpend
        · intro sk hs hpi
          have hs2 : s.socket = some sk := hs
          rw [hsk] at hs2
          injection hs2 with hs3
          subst hs3
          exact hsock sock hsk hpi
      · have hstep : wsStep s WSEvent.connectCall = createSocket s := by
          simp [wsStep, hsk, hg]
        rw [hstep]
        exact stuck_create ⟨hpend, harm, hsock⟩
  | openEvt =>
    cases hsk : s.socket with
    | none =>
      have hstep : wsStep s WSEvent.openEvt = s := by simp [wsStep, hsk]
      rw [hstep]
      exact ⟨hpend, harm, hsock⟩
    | some sock =>
      by_cases hg : sock.readyState = ReadyState.CONNECTING
      · have hpi : sock.promiseIdx ≠ p := fun hpi => hsock sock hsk hpi hg
        refine ⟨?_, ?_, ?_⟩
        · have hcalls : (wsStep s WSEvent.openEvt).connectCalls =
              settle s.connectCalls sock.promiseIdx PStatus.resolved := by
            simp [wsStep, hsk, hg, sendInitialConfigFn]
          rw [hcalls, settle_get_ne _ _ _ _ hpi]
          exact hpend
        · intro tp htp
          have harm2 : (wsStep s WSEvent.openEvt).armedTimeouts =
              s.armedTimeouts.filter
                (fun tp => tp != (sock.id, sock.promiseIdx)) := by
            simp [wsStep, hsk, hg, sendInitialConfigFn]
          rw [harm2] at htp
          exact harm tp (List.mem_of_mem_filter htp)
        · intro sk hs hpi2
          have hs2 : (wsStep s WSEvent.openEvt).socket =
              some ⟨sock.id, ReadyState.OPEN, sock.promiseIdx⟩ := by
            simp [wsStep, hsk, hg, sendInitialConfigFn]
          rw [hs2] at hs
          injection hs with hs3
          subst hs3
          simp
      · have hstep : wsStep s WSEvent.openEvt = s := by simp [wsStep, hsk, hg]
        rw [hstep]
        exact ⟨hpend, harm, hsock⟩
  | closeEvt code reason =>
    cases hsk : s.socket with
    | none =>
      have hstep : wsStep s (WSEvent.closeEvt code reason) = s := by
        simp [wsStep, hsk]
      rw [hstep]
      exact ⟨hpend, harm, hsock⟩
    | some sock =>
      by_cases hg : sock.readyState = ReadyState.CLOSED
      · have hstep : wsStep s (WSEvent.closeEvt code reason) = s := by
          simp [wsStep, hsk, hg]
        rw [hstep]
        exact ⟨hpend, harm, hsock⟩
      · refine ⟨?_, ?_, ?_⟩
        · have hcalls : (wsStep s (WSEvent.closeEvt code reason)).connectCalls =
              s.connectCalls := by
            simp [wsStep, hsk, hg]
          rw [hcalls]
          exact hpend
        · intro tp htp
          have harm2 : (wsStep s (WSEvent.closeEvt code reason)).armedTimeouts =
              s.armedTimeouts.filter
                (fun tp => tp != (sock.id, sock.promiseIdx)) := by
            simp [wsStep, hsk, hg]
          rw [harm2] at htp
          exact harm tp (List.mem_of_mem_filter htp)
        · intro sk hs hpi2
          have hs2 : (wsStep s (WSEvent.closeEvt code reason)).socket =
              some ⟨sock.id, ReadyState.CLOSED, sock.promiseIdx⟩ := by
            simp [wsStep, hsk, hg]
          rw [hs2] at hs
          injection hs with hs3
          subst hs3
          simp
  | errorEvt =>
    cases hsk : s.socket with
    | none =>
      have hstep : wsStep s WSEvent.errorEvt = s := by simp [wsStep, hsk]
      rw [hstep]
      exact ⟨hpend, harm, hsock⟩
    | some sock =>
      by_cases hg : sock.readyState = ReadyState.CLOSED
      · have hstep : wsStep s WSEvent.errorEvt = s := by simp [wsStep, hsk, hg]
        rw [hstep]
        exact ⟨hpend, harm, hsock⟩
      · refine ⟨?_, ?_, ?_⟩
        · have hcalls : (wsStep s WSEvent.errorEvt).connectCalls = s.connectCalls := by
            simp [wsStep, hsk, hg]
          rw [hcalls]
          exact hpend
        · intro tp htp
          have harm2 : (wsStep s WSEvent.errorEvt).armedTimeouts =
              s.armedTimeouts.filter
                (fun tp => tp != (sock.id, sock.promiseIdx)) := by
            simp [wsStep, hsk, hg]
          rw [harm2] at htp
          exact harm tp (List.mem_of_mem_filter htp)
        · intro sk hs hpi2
          have hs2 : (wsStep s WSEvent.errorEvt).socket =
              some ⟨sock.id, ReadyState.CLOSING, sock.promiseIdx⟩ := by
            simp [wsStep, hsk, hg]
          rw [hs2] at hs
          injection hs with hs3
          subst hs3
          simp
  | sendAudio =>
    refine ⟨?_, ?_, ?_⟩
    · have hcalls : (wsStep s WSEvent.sendAudio).connectCalls = s.connectCalls := by
        cases hsk : s.socket <;> cases hic : s.isConnected <;>
          simp [wsStep, hsk, hic, sendInitialConfigFn,
            apply_ite WSClient.connectCalls, ite_self]
      rw [hcalls]
      exact hpend
    · intro tp htp
      have harm2 : (wsStep s WSEvent.sendAudio).armedTimeouts = s.armedTimeouts := by
        cases hsk : s.socket <;> cases hic : s.isConnected <;>
          simp [wsStep, hsk, hic, sendInitialConfigFn,
            apply_ite WSClient.armedTimeouts, ite_self]
      rw [harm2] at htp
      exact harm tp htp
    · intro sk hs hpi
      have hs2 : (wsStep s WSEvent.sendAudio).socket = s.socket := by
        cases hsk : s.socket <;> cases hic : s.isConnected <;>
          simp [wsStep, hsk, hic, sendInitialConfigFn,
            apply_ite WSClient.socket, ite_self]
      rw [hs2] at hs
      exact hsock sk hs hpi
  | endTranscriptionCall =>
    refine ⟨?_, ?_, ?_⟩
    · have hcalls : (wsStep s WSEvent.endTranscriptionCall).connectCalls =
          s.connectCalls := by
        cases hsk : s.socket <;>
          simp [wsStep, hsk, apply_ite WSClient.connectCalls, ite_self]
      rw [hcalls]
      exact hpend
    · intro tp htp
      have harm2 : (wsStep s WSEvent.endTranscriptionCall).armedTimeouts =
          s.armedTimeouts := by
        cases hsk : s.socket <;>
          simp [wsStep, hsk, apply_ite WSClient.armedTimeouts, ite_self]
      rw [harm2] at htp
      exact harm tp htp
    · intro sk hs hpi
      have hs2 : (wsStep s WSEvent.endTranscriptionCall).socket = s.socket := by
        cases hsk : s.socket <;>
          simp [wsStep, hsk, apply_ite WSClient.socket, ite_self]
      rw [hs2] at hs
      exact hsock sk hs hpi
  | closeCall =>
    cases hsk : s.socket with
    | none =>
      have hstep : wsStep s WSEvent.closeCall = s := by simp [wsStep, hsk]
      rw [hstep]
      exact ⟨hpend, harm, hsock⟩
    | some sock =>
      refine ⟨?_, ?_, ?_⟩
      · have hcalls : (wsStep s WSEvent.closeCall).connectCalls = s.connectCalls := by
          simp [wsStep, hsk, apply_ite WSClient.connectCalls, ite_self]
        rw [hcalls]
        exact hpend
      · intro tp htp
        have harm2 : (wsStep s WSEvent.closeCall).armedTimeouts = s.armedTimeouts := by
          simp [wsStep, hsk, apply_ite WSClient.armedTimeouts, ite_self]
        rw [harm2] at htp
        exact harm tp htp
      · intro sk hs hpi
        have hs2 : (wsStep s WSEvent.closeCall).socket = none := by
          simp [wsStep, hsk]
        rw [hs2] at hs
        exact Option.noConfusion hs
  | timeoutFire i q =>
    by_cases hmem : (i, q) ∈ s.armedTimeouts
    · have hq : q ≠ p := harm (i, q) hmem
      cases hsk : s.socket with
      | none =>
        refine ⟨?_, ?_, ?_⟩
        · have hcalls : (wsStep s (WSEvent.timeoutFire i q)).connectCalls =
              s.connectCalls := by
            simp [wsStep, hmem, hsk]
          rw [hcalls]
          exact hpend
        · intro tp htp
          have harm2 : (wsStep s (WSEvent.timeoutFire i q)).armedTimeouts =
              s.armedTimeouts.filter (fun tp => tp != (i, q)) := by
            simp [wsStep, hmem, hsk]
          rw [harm2] at htp
          exact harm tp (List.mem_of_mem_filter htp)
        · intro sk hs hpi
          have hs2 : (wsStep s (WSEvent.timeoutFire i q)).socket = none := by
            simp [wsStep, hmem, hsk]
          rw [hs2] at hs
          exact Option.noConfusion hs
      | some sock =>
        by_cases hg : sock.readyState = ReadyState.OPEN
        · refine ⟨?_, ?_, ?_⟩
          · have hcalls : (wsStep s (WSEvent.timeoutFire i q)).connectCalls =
                s.connectCalls := by
              simp [wsStep, hmem, hsk, hg]
            rw [hcalls]
            exact hpend
          · intro tp htp
            have harm2 : (wsStep s (WSEvent.timeoutFire i q)).armedTimeouts =
                s.armedTimeouts.filter (fun tp => tp != (i, q)) := by
              simp [wsStep, hmem, hsk, hg]
            rw [harm2] at htp
            exact harm tp (List.mem_of_mem_filter htp)
          · intro sk hs hpi
            have hs2 : (wsStep s (WSEvent.timeoutFire i q)).socket = s.socket := by
              simp [wsStep, hmem, hsk, hg]
            rw [hs2] at hs
            exact hsock sk hs hpi
        · refine ⟨?_, ?_, ?_⟩
          · have hcalls : (wsStep s (WSEvent.timeoutFire i q)).connectCalls =
                settle s.connectCalls q PStatus.rejected := by
              simp [wsStep, hmem, hsk, hg]
            rw [hcalls, settle_get_ne _ _ _ _ hq]
            exact hpend
          · intro tp htp
            have harm2 : (wsStep s (WSEvent.timeoutFire i q)).armedTimeouts =
                s.armedTimeouts.filter (fun tp => tp != (i, q)) := by
              simp [wsStep, hmem, hsk, hg]
            rw [harm2] at htp
            exact harm tp (List.mem_of_mem_filter htp)
          · intro sk hs hpi
            have hs2 : (wsStep s (WSEvent.timeoutFire i q)).socket =
                some ⟨sock.id, ReadyState.CLOSING, sock.promiseIdx⟩ := by
              simp [wsStep, hmem, hsk, hg]
            rw [hs2] at hs
            injection hs with hs3
            subst hs3
            simp
    · have hstep : wsStep s (WSEvent.timeoutFire i q) = s := by simp [wsStep, hmem]
      rw [hstep]
      exact ⟨hpend, harm, hsock⟩

theorem stuck_run {p : Nat} : ∀ (evs : List WSEvent) (s : WSClient),
    StuckPromise s p → StuckPromise (wsRunFrom evs s) p := by
  intro evs
  induction evs with
  | nil => intro s h; exact h
  | cons e rest ih => intro s h; exact ih _ (stuck_step h e)

theorem get_append_one_not_rejected (l : List PStatus) (x : PStatus) (q : Nat)
    (hx : x ≠ PStatus.rejected)
    (h : (l ++ [x]).get? q = some PStatus.rejected) :
    l.get? q = some PStatus.rejected := by
  by_cases hq : q < l.length
  · rw [List.get?_append hq] at h
    exact h
  · by_cases hq2 : q = l.length
    · subst hq2
      rw [List.get?_concat_length] at h
      injection h with h2
      exact absurd h2 hx
    · have hge : (l ++ [x]).length ≤ q := by
        simp only [List.length_append, List.length_singleton]
        omega
      rw [List.get?_eq_none.mpr hge] at h
      exact Option.noConfusion h

theorem settle_not_rejected (l : List PStatus) (idx q : Nat) (st : PStatus)
    (hst : st ≠ PStatus.rejected)
    (h : (settle l idx st).get? q = some PStatus.rejected) :
    l.get? q = some PStatus.rejected := by
  by_cases hq : idx = q
  · subst hq
    rw [settle] at h
    split at h
    · rename_i hpend
      have hlt : idx < l.length := by
        by_contra hc
        rw [List.get?_eq_none.mpr (le_of_not_lt hc)] at hpend
        exact Option.noConfusion hpend
      rw [List.get?_set_eq_of_lt st hlt] at h
      injection h with h2
      exact absurd h2 hst
    · exact h
  · rw [settle_get_ne _ _ _ _ hq] at h
    exact h

/-- Only the 10-second connection-timeout path ever rejects a `connect()`
promise: any event other than a timeout firing leaves every non-rejected
promise non-rejected. -/
theorem reject_only_timeout (s : WSClient) (e : WSEvent) (q : Nat)
    (h1 : s.connectCalls.get? q ≠ some PStatus.rejected)
    (h2 : (wsStep s e).connectCalls.get? q = some PStatus.rejected) :
    ∃ i pp, e = WSEvent.timeoutFire i pp := by
  cases e with
  | connectCall =>
    exfalso
    apply h1
    cases hsk : s.socket with
    | none =>
      have hstep : wsStep s WSEvent.connectCall = createSocket s := by
        simp [wsStep, hsk]
      rw [hstep] at h2
      exact get_append_one_not_rejected _ _ _ (by simp) h2
    | some sock =>
      by_cases hg : sock.readyState = ReadyState.OPEN ∨
          sock.readyState = ReadyState.CONNECTING
      · have hstep : wsStep s WSEvent.connectCall =
            { s with connectCalls := s.connectCalls ++ [PStatus.resolved] } := by
          simp [wsStep, hsk, hg]
        rw [hstep] at h2
        exact get_append_one_not_rejected _ _ _ (by simp) h2
      · have hstep : wsStep s WSEvent.connectCall = createSocket s := by
          simp [wsStep, hsk, hg]
        rw [hstep] at h2
        exact get_append_one_not_rejected _ _ _ (by simp) h2
  | openEvt =>
    exfalso
    apply h1
    cases hsk : s.socket with
    | none =>
      have hstep : wsStep s WSEvent.openEvt = s := by simp [wsStep, hsk]
      rw [hstep] at h2
      exact h2
    | some sock =>
      by_cases hg : sock.readyState = ReadyState.CONNECTING
      · have hcalls : (wsStep s WSEvent.openEvt).connectCalls =
            settle s.connectCalls sock.promiseIdx PStatus.resolved := by
          simp [wsStep, hsk, hg, sendInitialConfigFn]
        rw [hcalls] at h2
        exact settle_not_rejected _ _ _ _ (by simp) h2
      · have hstep : wsStep s WSEvent.openEvt = s := by simp [wsStep, hsk, hg]
        rw [hstep] at h2
        exact h2
  | closeEvt code reason =>
    exfalso
    apply h1
    have hcalls : (wsStep s (WSEvent.closeEvt code reason)).connectCalls =
        s.connectCalls := by
      cases hsk : s.socket <;>
        simp [wsStep, hsk, apply_ite WSClient.connectCalls, ite_self]
    rw [hcalls] at h2
    exact h2
  | errorEvt =>
    exfalso
    apply h1
    have hcalls : (wsStep s WSEvent.errorEvt).connectCalls = s.connectCalls := by
      cases hsk : s.socket <;>
        simp [wsStep, hsk, apply_ite WSClient.connectCalls, ite_self]
    rw [hcalls] at h2
    exact h2
  | sendAudio =>
    exfalso
    apply h1
    have hcalls : (wsStep s WSEvent.sendAudio).connectCalls = s.connectCalls := by
      cases hsk : s.socket <;> cases hic : s.isConnected <;>
        simp [wsStep, hsk, hic, sendInitialConfigFn,
          apply_ite WSClient.connectCalls, ite_self]
    rw [hcalls] at h2
    exact h2
  | endTranscriptionCall =>
    exfalso
    apply h1
    have hcalls : (wsStep s WSEvent.endTranscriptionCall).connectCalls =
        s.connectCalls := by
      cases hsk : s.socket <;>
        simp [wsStep, hsk, apply_ite WSClient.connectCalls, ite_self]
    rw [hcalls] at h2
    exact h2
  | closeCall =>
    exfalso
    apply h1
    have hcalls : (wsStep s WSEvent.closeCall).connectCalls = s.connectCalls := by
      cases hsk : s.socket <;>
        simp [wsStep, hsk, apply_ite WSClient.connectCalls, ite_self]
    rw [hcalls] at h2
    exact h2
  | timeoutFire i pp =>
    exact ⟨i, pp, rfl⟩

/-- C10: when a socket created by `connect()` fires an error or close event
before its open event, the handler clears the 10-second connection timeout
but neither resolves nor rejects; the promise of that `connect()` call is
left pending and no later event can ever settle it — only the timeout path
ever rejects a promise. -/
theorem connect_promise_never_settles (evs : List WSEvent) (p : Nat) (sock : SockSt)
    (hsock : (wsRun evs).socket = some sock)
    (hconn : sock.readyState = ReadyState.CONNECTING)
    (hidx : sock.promiseIdx = p)
    (hpend : (wsRun evs).connectCalls.get? p = some PStatus.pending)
    (harm : ∀ tp ∈ (wsRun evs).armedTimeouts, tp.2 = p → tp.1 = sock.id) :
    ((wsStep (wsRun evs) WSEvent.errorEvt).connectCalls =
        (wsRun evs).connectCalls ∧
      StuckPromise (wsStep (wsRun evs) WSEvent.errorEvt) p ∧
      ∀ evs2, (wsRunFrom evs2 (wsStep (wsRun evs) WSEvent.errorEvt)).connectCalls.get?
        p = some PStatus.pending) ∧
    (∀ code reason,
      (wsStep (wsRun evs) (WSEvent.closeEvt code reason)).connectCalls =
        (wsRun evs).connectCalls ∧
      StuckPromise (wsStep (wsRun evs) (WSEvent.closeEvt code reason)) p ∧
      ∀ evs2, (wsRunFrom evs2
        (wsStep (wsRun evs) (WSEvent.closeEvt code reason))).connectCalls.get? p =
          some PStatus.pending) ∧
    (∀ (w : WSClient) (e : WSEvent) (q : Nat),
      w.connectCalls.get? q ≠ some PStatus.rejected →
      (wsStep w e).connectCalls.get? q = some PStatus.rejected →
      ∃ i pp, e = WSEvent.timeoutFire i pp) := by
  set s := wsRun evs with hs
  have hne : sock.readyState ≠ ReadyState.CLOSED := by
    rw [hconn]
    simp
  have harm2 : ∀ tp ∈ s.armedTimeouts.filter
      (fun tp => tp != (sock.id, sock.promiseIdx)), tp.2 ≠ p := by
    intro tp htp hp2
    have hmem := List.mem_of_mem_filter htp
    have hfil := List.of_mem_filter htp
    have h1 := harm tp hmem hp2
    apply absurd hfil
    simp only [bne_iff_ne, ne_eq, not_not]
    rw [hidx]
    exact Prod.ext h1 hp2
  refine ⟨⟨?_, ⟨?_, ?_, ?_⟩, ?_⟩, ?_, reject_only_timeout⟩
  · simp [wsStep, hsock, hne]
  · have hcalls : (wsStep s WSEvent.errorEvt).connectCalls = s.connectCalls := by
      simp [wsStep, hsock, hne]
    rw [hcalls]
    exact hpend
  · intro tp htp
    have harm3 : (wsStep s WSEvent.errorEvt).armedTimeouts =
        s.armedTimeouts.filter (fun tp => tp != (sock.id, sock.promiseIdx)) := by
      simp [wsStep, hsock, hne]
    rw [harm3] at htp
    exact harm2 tp htp
  · intro sk hsk2 hpi
    have hs2 : (wsStep s WSEvent.errorEvt).socket =
        some ⟨sock.id, ReadyState.CLOSING, sock.promiseIdx⟩ := by
      simp [wsStep, hsock, hne]
    rw [hs2] at hsk2
    injection hsk2 with hs3
    subst hs3
    simp
  · intro evs2
    have hstuck : StuckPromise (wsStep s WSEvent.errorEvt) p := by
      refine ⟨?_, ?_, ?_⟩
      · have hcalls : (wsStep s WSEvent.errorEvt).connectCalls = s.connectCalls := by
          simp [wsStep, hsock, hne]
        rw [hcalls]
        exact hpend
      · intro tp htp
        have harm3 : (wsStep s WSEvent.errorEvt).armedTimeouts =
            s.armedTimeouts.filter (fun tp => tp != (sock.id, sock.promiseIdx)) := by
          simp [wsStep, hsock, hne]
        rw [harm3] at htp
        exact harm2 tp htp
      · intro sk hsk2 hpi
        have hs2 : (wsStep s WSEvent.errorEvt).socket =
            some ⟨sock.id, ReadyState.CLOSING, sock.promiseIdx⟩ := by
          simp [wsStep, hsock, hne]
        rw [hs2] at hsk2
        injection hsk2 with hs3
        subst hs3
        simp
    exact (stuck_run evs2 _ hstuck).1
  · intro code reason
    have hcalls : (wsStep s (WSEvent.closeEvt code reason)).connectCalls =
        s.connectCalls := by
      simp [wsStep, hsock, hne]
    have harm3 : (wsStep s (WSEvent.closeEvt code reason)).armedTimeouts =
        s.armedTimeouts.filter (fun tp => tp != (sock.id, sock.promiseIdx)) := by
      simp [wsStep, hsock, hne]
    have hs2 : (wsStep s (WSEvent.closeEvt code reason)).socket =
        some ⟨sock.id, ReadyState.CLOSED, sock.promiseIdx⟩ := by
      simp [wsStep, hsock, hne]
    have hstuck : StuckPromise (wsStep s (WSEvent.closeEvt code reason)) p := by
      refine ⟨?_, ?_, ?_⟩
      · rw [hcalls]
        exact hpend
      · intro tp htp
        rw [harm3] at htp
        exact harm2 tp htp
      · intro sk hsk2 hpi
        rw [hs2] at hsk2
        injection hsk2 with hs3
        subst hs3
        simp
    refine ⟨by rw [hcalls], hstuck, ?_⟩
    intro evs2
    exact (stuck_run evs2 _ hstuck).1

theorem connect_promise_never_settles_witness :
    (wsRunFrom [WSEvent.closeEvt 1006 "", WSEvent.connectCall, WSEvent.openEvt]
        (wsStep (wsRun [WSEvent.connectCall]) WSEvent.errorEvt)).connectCalls.get?
      0 = some PStatus.pending := by
  have h := connect_promise_never_settles [WSEvent.connectCall] 0
    ⟨0, ReadyState.CONNECTING, 0⟩ rfl rfl rfl rfl (by decide)
  exact h.1.2.2 [WSEvent.closeEvt 1006 "", WSEvent.connectCall, WSEvent.openEvt]

/-- C3 evaluated on the code: two consecutive segment messages, each carrying
the completed segment "hello", append the text twice.  The membership check
`transcriptQueue.includes(seg.text)` only sees texts still waiting in the
queue; the `setTranscript` updater drains the queue when committing
segments, so when the second message arrives the queue is empty again and
"hello" passes the duplicate check a second time. -/
theorem transcript_dedup_failure :
    ((processMessages
        [ServerMessage.segments [⟨"hello", true, none⟩],
         ServerMessage.segments [⟨"hello", true, none⟩]]
        initReconciler).transcript.map TranscriptSegment.text) =
      ["hello", "hello"] := by
  rfl

theorem segScan_currentText : ∀ (segs : List Seg)
    (acc : List String × String × Option Seg),
    (segs.foldl segStep acc).2.1 =
      ((segs.filter (fun sg => !sg.completed)).map Seg.text).getLastD acc.2.1 := by
  intro segs
  induction segs with
  | nil => intro acc; rfl
  | cons seg rest ih =>
    intro acc
    rw [List.foldl_cons, ih]
    cases hc : seg.completed
    · have h1 : (segStep acc seg).2.1 = seg.text := by simp [segStep, hc]
      have h2 : (seg :: rest).filter (fun sg => !sg.completed) =
          seg :: rest.filter (fun sg => !sg.completed) := by
        simp [List.filter_cons, hc]
      rw [h1, h2, List.map_cons, List.getLastD_cons]
    · have h1 : (segStep acc seg).2.1 = acc.2.1 := by simp [segStep, hc]
      have h2 : (seg :: rest).filter (fun sg => !sg.completed) =
          rest.filter (fun sg => !sg.completed) := by
        simp [List.filter_cons, hc]
      rw [h1, h2]

/-- C7: after processing any segment-list message the interim text equals
the text of the last non-completed segment of that message (empty when
there is none); and a message with only an interim segment followed by a
message in which that text is completed yields exactly one new finalized
segment and an empty interim value — never two transcript entries. -/
theorem interim_replace_not_append :
    (∀ (s : Reconciler) (segs : List Seg),
      (processMessage s (ServerMessage.segments segs)).currentText =
        ((segs.filter (fun sg => !sg.completed)).map Seg.text).getLastD "") ∧
    (∀ (s : Reconciler) (t : String) (conf : Option ℚ),
      s.transcriptQueue = [] →
      (processMessage (processMessage s (ServerMessage.segments [⟨t, false, none⟩]))
          (ServerMessage.segments [⟨t, true, conf⟩])).transcript =
        s.transcript ++ [⟨t, conf⟩] ∧
      (processMessage (processMessage s (ServerMessage.segments [⟨t, false, none⟩]))
          (ServerMessage.segments [⟨t, true, conf⟩])).currentText = "") := by
  constructor
  · intro s segs
    exact segScan_currentText segs (s.transcriptQueue, "", none)
  · intro s t conf hq
    constructor
    · simp [processMessage, segScan, segStep, drainQueue, hq]
    · simp [processMessage, segScan, segStep, drainQueue, hq]

theorem interim_replace_not_append_witness :
    (processMessage (processMessage initReconciler
        (ServerMessage.segments [⟨"x", false, none⟩]))
      (ServerMessage.segments [⟨"x", true, none⟩])).transcript =
      [⟨"x", none⟩] := by
  have h := interim_replace_not_append.2 initReconciler "x" none rfl
  rw [h.1]
  rfl

theorem clampSample_mem (x : ℚ) : -1 ≤ clampSample x ∧ clampSample x ≤ 1 := by
  constructor
  · exact le_max_left _ _
  · rw [clampSample]
    rcases le_total 1 x with h | h
    · rw [min_eq_left h]
      norm_num
    · rw [min_eq_right h]
      rcases le_total (-1) x with h2 | h2
      · rw [max_eq_right h2]
        exact h
      · rw [max_eq_left h2]
        norm_num

theorem clampSample_idem (x : ℚ) : clampSample (clampSample x) = clampSample x := by
  obtain ⟨h1, h2⟩ := clampSample_mem x
  rw [clampSample, min_eq_right h2, max_eq_right h1]

theorem scaleSample_bounds {y : ℚ} (h1 : -1 ≤ y) (h2 : y ≤ 1) :
    -32768 ≤ scaleSample y ∧ scaleSample y ≤ 32767 := by
  rw [scaleSample]
  by_cases hy : y < 0
  · rw [if_pos hy]
    constructor
    · nlinarith
    · nlinarith
  · rw [if_neg hy]
    push_neg at hy
    constructor
    · nlinarith
    · nlinarith

theorem truncQ_bounds {q : ℚ} (h1 : -32768 ≤ q) (h2 : q ≤ 32767) :
    -32768 ≤ truncQ q ∧ truncQ q ≤ 32767 := by
  rw [truncQ]
  by_cases hq : 0 ≤ q
  · rw [if_pos hq]
    constructor
    · have : (0 : Int) ≤ ⌊q⌋ := Int.floor_nonneg.mpr hq
      omega
    · have hf : (⌊q⌋ : ℚ) ≤ q := Int.floor_le q
      have : (⌊q⌋ : ℚ) ≤ 32767 := hf.trans h2
      exact_mod_cast this
  · rw [if_neg hq]
    push_neg at hq
    constructor
    · have hc : q ≤ (⌈q⌉ : ℚ) := Int.le_ceil q
      have : (-32768 : ℚ) ≤ (⌈q⌉ : ℚ) := h1.trans hc
      exact_mod_cast this
    · have : ⌈q⌉ ≤ (0 : Int) := by
        rw [Int.ceil_le]
        exact_mod_cast hq.le
      omega

theorem toInt16_eq_self {v : Int} (h1 : -32768 ≤ v) (h2 : v ≤ 32767) :
    toInt16 v = v := by
  rw [toInt16]
  show (v + 32768) % 65536 - 32768 = v
  omega

theorem formatSample_bounds (x : ℚ) :
    -32768 ≤ formatSample x ∧ formatSample x ≤ 32767 := by
  obtain ⟨h1, h2⟩ := clampSample_mem x
  obtain ⟨h3, h4⟩ := scaleSample_bounds h1 h2
  obtain ⟨h5, h6⟩ := truncQ_bounds h3 h4
  rw [formatSample, toInt16_eq_self h5 h6]
  exact ⟨h5, h6⟩

theorem flatMap_pair_get (f : Int → List Nat) (hf : ∀ v, (f v).length = 2) :
    ∀ (l : List Int) (i : Nat), i < l.length →
      (l.flatMap f).get? (2 * i) = (f (l.getD i 0)).get? 0 ∧
      (l.flatMap f).get? (2 * i + 1) = (f (l.getD i 0)).get? 1 := by
  intro l
  induction l with
  | nil => intro i h; simp at h
  | cons a t ih =>
    intro i h
    rw [List.flatMap_cons]
    cases i with
    | zero =>
      constructor
      · rw [List.get?_append (by rw [hf]; omega)]
        rfl
      · rw [List.get?_append (by rw [hf]; omega)]
        rfl
    | succ j =>
      have hj : j < t.length := by
        simp at h
        omega
      have h2 : ∀ (k : Nat), (f a ++ t.flatMap f).get? ((f a).length + k) =
          (t.flatMap f).get? k := by
        intro k
        rw [List.get?_append_right (by omega)]
        congr 1
        omega
      have ha : (f a).length = 2 := hf a
      constructor
      · have := h2 (2 * j)
        rw [ha] at this
        have harith : 2 * (j + 1) = 2 + 2 * j := by omega
        rw [harith, this]
        have := (ih j hj).1
        rw [this]
        rfl
      · have := h2 (2 * j + 1)
        rw [ha] at this
        have harith : 2 * (j + 1) + 1 = 2 + (2 * j + 1) := by omega
        rw [harith, this]
        have := (ih j hj).2
        rw [this]
        rfl

/-- C9: `formatAudioData` clamps each float sample to [-1, 1] (clamping
first is observationally forced: out-of-range inputs encode exactly like
their clamped values), maps the clamped values onto the full signed 16-bit
integer range (every output is in [-32768, 32767], -1 maps to -32768 and
+1 maps to 32767), and the emitted buffer serializes the resulting 16-bit
words little-endian in order; `processAndSendAudio` emits no encoded output
at all for a zero-length input (a no-op, not an error), and emits exactly
the encoded resampled buffer otherwise. -/
theorem encode_contract :
    (∀ x : ℚ, formatSample x = formatSample (clampSample x)) ∧
    (∀ x : ℚ, -32768 ≤ formatSample x ∧ formatSample x ≤ 32767) ∧
    formatSample (-1) = -32768 ∧
    formatSample 1 = 32767 ∧
    (∀ xs : List ℚ, (formatAudioDataBytes xs).length = 2 * xs.length) ∧
    (∀ (xs : List ℚ) (i : Nat), i < xs.length →
      (formatAudioDataBytes xs).get? (2 * i) =
        some ((((formatSample (xs.getD i 0)).emod 65536).toNat) % 256) ∧
      (formatAudioDataBytes xs).get? (2 * i + 1) =
        some ((((formatSample (xs.getD i 0)).emod 65536).toNat) / 256)) ∧
    (∀ resample : List ℚ → List ℚ, processAndSendAudio resample [] = none) ∧
    (∀ (resample : List ℚ → List ℚ) (xs : List ℚ), xs ≠ [] →
      processAndSendAudio resample xs =
        some (formatAudioDataBytes (resample xs))) := by
  refine ⟨?_, formatSample_bounds, ?_, ?_, ?_, ?_, ?_, ?_⟩
  · intro x
    rw [formatSample, formatSample, clampSample_idem]
  · have hc : clampSample (-1) = -1 := by rw [clampSample]; norm_num
    have hs : scaleSample (-1) = -32768 := by rw [scaleSample]; norm_num
    have ht : truncQ (-32768 : ℚ) = -32768 := by
      have hcast : ((-32768 : Int) : ℚ) = (-32768 : ℚ) := by norm_num
      rw [truncQ, if_neg (by norm_num), ← hcast, Int.ceil_intCast]
    rw [formatSample, hc, hs, ht, toInt16]
    decide
  · have hc : clampSample 1 = 1 := by rw [clampSample]; norm_num
    have hs : scaleSample 1 = 32767 := by rw [scaleSample]; norm_num
    have ht : truncQ (32767 : ℚ) = 32767 := by
      have hcast : ((32767 : Int) : ℚ) = (32767 : ℚ) := by norm_num
      rw [truncQ, if_pos (by norm_num), ← hcast, Int.floor_intCast]
    rw [formatSample, hc, hs, ht, toInt16]
    decide
  · intro xs
    rw [formatAudioDataBytes, formatAudioData]
    induction xs with
    | nil => rfl
    | cons a t ih =>
      rw [List.map_cons, List.flatMap_cons, List.length_append, ih]
      simp [int16LEBytes, List.length_cons]
      omega
  · intro xs i h
    have hlen : ∀ v : Int, (int16LEBytes v).length = 2 := by
      intro v
      rfl
    have hmap : i < (formatAudioData xs).length := by
      rw [formatAudioData, List.length_map]
      exact h
    have := flatMap_pair_get int16LEBytes hlen (formatAudioData xs) i hmap
    rw [formatAudioDataBytes]
    have hget : (formatAudioData xs).getD i 0 = formatSample (xs.getD i 0) := by
      rw [formatAudioData]
      rw [List.getD_eq_getElem?_getD, List.getElem?_map]
      rw [List.getD_eq_getElem?_getD]
      cases hx : xs[i]? with
      | none =>
        have := List.getElem?_eq_none_iff.mp hx
        omega
      | some v => rfl
    rw [hget] at this
    exact this
  · intro resample
    rfl
  · intro resample xs hxs
    rw [processAndSendAudio, if_neg]
    simp [hxs]
